import Mathlib

/-!
# Inventory service: tag ingestion (`skumapping.go`), JSON-RPC envelopes (`pkg/jsonrpc/model.go`) and `GetTags` (`app/routes/handlers/handlers.go`)

A shallow embedding of `SkuMapping.processTagData`, of the `Validate` methods of the
JSON-RPC message types, and of the handler `Inventory.GetTags`.

`processTagData` talks to collaborators whose code lives in other packages
(`statemodel`, `tag`, `handlers`, `cloudconnector`, `rules`, `config`).  They are
fields of `Env` (what the ingestion path computes with) and of `Sinks` (what the
background goroutines call), so every general theorem below holds for any
implementation of them.  Side effects are explicit: the store is threaded through,
and every collaborator call that matters is recorded in the `Outcome`.
-/

set_option autoImplicit false

namespace Inventory

/-! ## `pkg/jsonrpc/model.go` -/

namespace jsonrpc

/-- The constant `RpcVersion`. -/
def RpcVersion : String := "2.0"

/-- The three package-level error values created with `errors.New`; `nil` is `none`. -/
inductive RpcError where
  | ErrInvalidVersion
  | ErrMissingMethod
  | ErrMissingId
  deriving DecidableEq, Repr

/-- The text carried by each error value. -/
def RpcError.Error : RpcError → String
  | .ErrInvalidVersion => "invalid jsonrpc version"
  | .ErrMissingMethod => "missing or empty method field"
  | .ErrMissingId => "missing or empty id field"

/-- The struct `Notification`; `Params` (a `json.RawMessage`) is kept as its text.
A field missing from the JSON document decodes to the empty string. -/
structure Notification where
  Version : String
  Method : String
  Params : String
  deriving DecidableEq, Repr

/-- The struct `Request`: an embedded `Notification` and an `Id`. -/
structure Request where
  toNotification : Notification
  Id : String
  deriving DecidableEq, Repr

/-- The method `(*Notification).Validate`. -/
def Notification.Validate (js : Notification) : Option RpcError :=
  if js.Version ≠ RpcVersion then
    some RpcError.ErrInvalidVersion
  else if js.Method = "" then
    some RpcError.ErrMissingMethod
  else
    none

/-- The method `(*Request).Validate`. -/
def Request.Validate (js : Request) : Option RpcError :=
  if js.Id = "" then
    some RpcError.ErrMissingId
  else
    js.toNotification.Validate

/-- One read of the `Data` array of an inventory event (`jsonrpc.TagEvent`).
`processTagData` itself reads `EpcCode` and writes `EventType`; the other fields are
the ones the read carries for the collaborators. -/
structure TagEvent where
  EpcCode : String
  EventType : String
  FacilityID : String
  Location : String
  Timestamp : Int
  deriving DecidableEq, Repr

/-- The `Params` member of an inventory event. -/
structure InventoryEventParams where
  ControllerId : String
  Data : List TagEvent
  deriving DecidableEq, Repr

/-- The struct `jsonrpc.InventoryEvent`, as far as `processTagData` looks into it. -/
structure InventoryEvent where
  Params : InventoryEventParams
  deriving DecidableEq, Repr

end jsonrpc

open jsonrpc

/-! ## `skumapping.go` -/

/- Results of collaborators are compared when the examples are evaluated. -/
deriving instance DecidableEq for Except

/-- The struct `tag.TagStateChange`: the record before and after the update. -/
structure TagStateChange (T : Type) where
  PreviousState : T
  CurrentState : T
  deriving DecidableEq, Repr

/-- The error returned by `processTagData`: either `errors.Wrap(err, msg)` or the
collaborator's error handed up as it is. -/
inductive Failure (Err : Type) where
  | Wrap (err : Err) (message : String)
  | Plain (err : Err)
  deriving DecidableEq, Repr

/-- What the ingestion path of `processTagData` computes with: the configuration
(`config.AppConfig`) and the collaborators it calls synchronously.  `T` is the
record type `tag.Tag`, `DB` the store behind `invApp.masterDB`, `Err` the errors of
the collaborators.

* `emptyTag` is the zero value `tag.Tag{}`;
* `FindByEpc` only reads the store;
* `Replace` returns the store it leaves behind together with its error, so that a
  failing `Replace` is free to have written something;
* `ApplyConfidence` and `UpdateForCycleCount` update the elements of the slice in
  place, which is modelled by returning the slice. -/
structure Env (T DB Err : Type) where
  EpcFilters : List String
  AgeOuts : List (String × Int)
  CloudConnectorUrl : String
  RulesUrl : String
  ArrivalEvent : String
  emptyTag : T
  IsTagWhitelisted : String → List String → Bool
  markDepartedIfUnseen : TagEvent → List (String × Int) → Int → TagEvent
  FindByEpc : DB → String → Except Err T
  UpdateTag : T → TagEvent → String → T
  IsEqual : T → T → Bool
  Replace : DB → List T → DB × Option Err
  ApplyConfidence : DB → List T → String → Except Err (List T)
  UpdateForCycleCount : List T → List T

/-- What the three sinks answer when the goroutines started by `processTagData`
call them (`none` is `nil`). -/
structure Sinks (T Err : Type) where
  SendEvent : InventoryEvent → List T → Option Err
  ApplyRules : String → List (TagStateChange T) → Option Err
  pushEventsToCoreData : Int → String → List T → Option Err

/-- One call of `statemodel.UpdateTag(tagFromDB, tempTag, source)`. -/
structure UpdateCall (T : Type) where
  tagFromDB : T
  tempTag : TagEvent
  source : String
  deriving DecidableEq, Repr

/-- A goroutine started by `processTagData`, with the arguments of the sink call it
makes. -/
inductive Dispatch (T : Type) where
  | SendEvent (invEvent : InventoryEvent) (tagData : List T)
  | ApplyRules (source : String) (tagStateChangeList : List (TagStateChange T))
  | pushEventsToCoreData (currentTimeMillis : Int) (controllerId : String) (tagData : List T)
  deriving DecidableEq, Repr

/-- The variables the `for ... range invEvent.Params.Data` loop writes, together
with the record of the collaborator calls it has made. -/
structure LoopState (T : Type) where
  tagData : List T
  tagStateChangeList : List (TagStateChange T)
  findCalls : List String
  updateCalls : List (UpdateCall T)
  deriving DecidableEq, Repr

/-- The state at loop entry: both slices are `nil`. -/
def LoopState.init (T : Type) : LoopState T :=
  { tagData := [], tagStateChangeList := [], findCalls := [], updateCalls := [] }

section
variable {T DB Err : Type}

/-- The read as it is after `markDepartedIfUnseen(&tempTag, ...)` and the
`source == "handheld"` assignment, the form in which it is used for the lookup and
handed to `UpdateTag`. -/
def prepareRead (env : Env T DB Err) (source : String) (currentTimeMillis : Int)
    (tempTag : TagEvent) : TagEvent :=
  let tempTag := env.markDepartedIfUnseen tempTag env.AgeOuts currentTimeMillis
  if source = "handheld" then { tempTag with EventType := env.ArrivalEvent } else tempTag

/-- The condition of the `continue` at the head of the loop body. -/
def skipsRead (env : Env T DB Err) (tempTag : TagEvent) : Bool :=
  decide (env.EpcFilters.length > 0) &&
    !env.IsTagWhitelisted tempTag.EpcCode env.EpcFilters

/-- The guard in front of `tagStateChangeList = append(...)`. -/
def recordsChange (env : Env T DB Err) (tagStateChange : TagStateChange T) : Bool :=
  (env.IsEqual tagStateChange.PreviousState env.emptyTag != true) &&
    (env.IsEqual tagStateChange.CurrentState env.emptyTag != true)

/-- The `tag.TagStateChange` the loop body builds after a call of `UpdateTag`:
`PreviousState` is the record looked up, `CurrentState` the record `UpdateTag` returns. -/
def UpdateCall.change (env : Env T DB Err) (c : UpdateCall T) : TagStateChange T :=
  { PreviousState := c.tagFromDB
    CurrentState := env.UpdateTag c.tagFromDB c.tempTag c.source }

/-- The state after one pass through the loop body for a read that is kept and whose
lookup returned `t`. -/
def LoopState.push (env : Env T DB Err) (source : String) (now : Int) (st : LoopState T)
    (r : TagEvent) (t : T) : LoopState T :=
  { tagData := st.tagData ++ [env.UpdateTag t (prepareRead env source now r) source]
    tagStateChangeList :=
      if recordsChange env ⟨t, env.UpdateTag t (prepareRead env source now r) source⟩ then
        st.tagStateChangeList ++ [⟨t, env.UpdateTag t (prepareRead env source now r) source⟩]
      else st.tagStateChangeList
    findCalls := st.findCalls ++ [(prepareRead env source now r).EpcCode]
    updateCalls := st.updateCalls ++ [⟨t, prepareRead env source now r, source⟩] }

/-- The loop `for _, tempTag := range invEvent.Params.Data` of `processTagData`.
The second component is the error of the early `return` inside the loop, `none`
when the loop runs to its end. -/
def rangeLoop (env : Env T DB Err) (db : DB) (source : String) (currentTimeMillis : Int) :
    List TagEvent → LoopState T → LoopState T × Option (Failure Err)
  | [], st => (st, none)
  | tempTag :: rest, st =>
    if skipsRead env tempTag then
      rangeLoop env db source currentTimeMillis rest st
    else
      let tempTag := prepareRead env source currentTimeMillis tempTag
      match env.FindByEpc db tempTag.EpcCode with
      | .error err =>
        ({ st with findCalls := st.findCalls ++ [tempTag.EpcCode] },
          some (Failure.Wrap err "Error retrieving tag from database"))
      | .ok tagFromDB =>
        let updatedTag := env.UpdateTag tagFromDB tempTag source
        let tagStateChange : TagStateChange T :=
          { PreviousState := tagFromDB, CurrentState := updatedTag }
        rangeLoop env db source currentTimeMillis rest
          { tagData := st.tagData ++ [updatedTag]
            tagStateChangeList :=
              if recordsChange env tagStateChange then
                st.tagStateChangeList ++ [tagStateChange]
              else st.tagStateChangeList
            findCalls := st.findCalls ++ [tempTag.EpcCode]
            updateCalls := st.updateCalls ++
              [{ tagFromDB := tagFromDB, tempTag := tempTag, source := source }] }

/-- Everything observable of one call of `processTagData`.

* `err`: the returned error (`none` is `nil`);
* `db`: the store after the call;
* `tagsFilteredLogged`: the number printed by `log.Debugf("Filtered %d Tags.", ...)`,
  `none` when that line is not reached;
* `loop`: the loop variables and the lookups and `UpdateTag` calls made;
* `replaceCalls`: the arguments of the calls of `tag.Replace`;
* `dispatched`: the goroutines started, in program order;
* `sinkErrorsLogged`: the errors the goroutines log. -/
structure Outcome (T DB Err : Type) where
  err : Option (Failure Err)
  db : DB
  tagsFilteredLogged : Option Nat
  loop : LoopState T
  replaceCalls : List (List T)
  dispatched : List (Dispatch T)
  sinkErrorsLogged : List Err

/-- The goroutines started once the batch is stored, in program order. -/
def dispatchSinks (env : Env T DB Err) (invEvent : InventoryEvent) (source : String)
    (currentTimeMillis : Int) (tagData : List T)
    (tagStateChangeList : List (TagStateChange T)) : List (Dispatch T) :=
  (if env.CloudConnectorUrl ≠ "" then [Dispatch.SendEvent invEvent tagData] else []) ++
  (if env.RulesUrl ≠ "" then [Dispatch.ApplyRules source tagStateChangeList] else []) ++
  [Dispatch.pushEventsToCoreData currentTimeMillis invEvent.Params.ControllerId tagData]

/-- The body of one goroutine: call the sink; the two closures log a non-nil error,
the result of `pushEventsToCoreData` is dropped by the `go` statement. -/
def runDispatch (sinks : Sinks T Err) : Dispatch T → List Err
  | .SendEvent invEvent tagData => (sinks.SendEvent invEvent tagData).toList
  | .ApplyRules source changes => (sinks.ApplyRules source changes).toList
  | .pushEventsToCoreData t c tagData =>
    let _dropped := sinks.pushEventsToCoreData t c tagData
    []

/-- The method `SkuMapping.processTagData`.  `url` is `skuMapping.url`, `db` the
store behind `invApp.masterDB` and `currentTimeMillis` the value of
`helper.UnixMilliNow()`; the metrics calls are left out. -/
def processTagData (env : Env T DB Err) (sinks : Sinks T Err) (url : String) (db : DB)
    (invEvent : InventoryEvent) (source : String) (currentTimeMillis : Int) :
    Outcome T DB Err :=
  let numberOfTags := invEvent.Params.Data.length
  if numberOfTags = 0 then
    { err := none, db := db, tagsFilteredLogged := none, loop := LoopState.init T,
      replaceCalls := [], dispatched := [], sinkErrorsLogged := [] }
  else
    let tagsFiltered := 0
    match rangeLoop env db source currentTimeMillis invEvent.Params.Data (LoopState.init T) with
    | (st, some err) =>
      { err := some err, db := db, tagsFilteredLogged := none, loop := st,
        replaceCalls := [], dispatched := [], sinkErrorsLogged := [] }
    | (st, none) =>
      if st.tagData.length > 0 then
        match env.Replace db st.tagData with
        | (db1, some err) =>
          { err := some (Failure.Wrap err "error replacing tags"), db := db1,
            tagsFilteredLogged := some tagsFiltered, loop := st,
            replaceCalls := [st.tagData], dispatched := [], sinkErrorsLogged := [] }
        | (db1, none) =>
          match env.ApplyConfidence db1 st.tagData url with
          | .error err =>
            { err := some (Failure.Plain err), db := db1,
              tagsFilteredLogged := some tagsFiltered, loop := st,
              replaceCalls := [st.tagData], dispatched := [], sinkErrorsLogged := [] }
          | .ok tagData =>
            let tagData := env.UpdateForCycleCount tagData
            let started := dispatchSinks env invEvent source currentTimeMillis tagData
              st.tagStateChangeList
            { err := none, db := db1, tagsFilteredLogged := some tagsFiltered, loop := st,
              replaceCalls := [st.tagData], dispatched := started,
              sinkErrorsLogged := started.flatMap (runDispatch sinks) }
      else
        { err := none, db := db, tagsFilteredLogged := some tagsFiltered, loop := st,
          replaceCalls := [], dispatched := [], sinkErrorsLogged := [] }

end

/-! ## A concrete store and concrete collaborators

The collaborators of `processTagData` are declared in packages outside the files at
hand.  The definitions of this section give one concrete choice for each of them,
used to evaluate `processTagData` on explicit batches. -/

namespace Model

/-- Modelled from the spec: the states of the tag state machine (§4.1), `Unknown`
being the state of a record before its first read. -/
inductive TagState where
  | Unknown
  | Present
  | Exiting
  | DepartedExit
  | DepartedPos
  deriving DecidableEq, Repr

/-- Modelled from the spec: the record type `tag.Tag` (§3, Tag), reduced to the key,
the presence state, the time, facility and location of the last read. -/
structure Tag where
  Epc : String
  State : TagState
  LastRead : Int
  FacilityID : String
  Location : String
  deriving DecidableEq, Repr

/-- The zero value `tag.Tag{}`. -/
def Tag.zero : Tag :=
  { Epc := "", State := TagState.Unknown, LastRead := 0, FacilityID := "", Location := "" }

/-- Modelled from the spec: the method `tag.Tag.IsEqual`, the comparison of two
records field by field. -/
def IsEqual (a b : Tag) : Bool := decide (a = b)

/-- Modelled from the spec: the store of §6, one record per EPC. -/
abbrev Store := List Tag

/-- Modelled from the spec: `tag.FindByEpc`, the "find by EPC" of the store (§6); an
EPC without a record yields the zero value and no error. -/
def FindByEpc (db : Store) (epc : String) : Except String Tag :=
  match db.find? (fun t => decide (t.Epc = epc)) with
  | some t => Except.ok t
  | none => Except.ok Tag.zero

/-- Write one record: it takes the place of the record of the same EPC, or is added. -/
def upsert (db : Store) (t : Tag) : Store :=
  if db.any (fun u => decide (u.Epc = t.Epc)) then
    db.map (fun u => if u.Epc = t.Epc then t else u)
  else db ++ [t]

/-- Modelled from the spec: `tag.Replace`, the "bulk replace" of the store (§6). -/
def Replace (db : Store) (tags : List Tag) : Store × Option String :=
  (tags.foldl upsert db, none)

/-- Modelled from the spec: `statemodel.IsTagWhitelisted`, the test whether a read
matches one of the configured filters (§4.3); a filter is taken to match the EPCs that
start with it. -/
def IsTagWhitelisted (epc : String) (whiteList : List String) : Bool :=
  whiteList.any (fun f => f.data.isPrefixOf epc.data)

/-- The lookup `ageOuts[facility]` in the configured age-out table. -/
def ageOut? (ageOuts : List (String × Int)) (facility : String) : Option Int :=
  (ageOuts.find? (fun p => decide (p.1 = facility))).map Prod.snd

/-- Modelled from the spec: `markDepartedIfUnseen`, which `processTagData` calls with a
pointer to the read, the age-out table and the current time: when the time of the read
lies further back than the age-out threshold of its facility (§4.1), the read is marked
as a departure. -/
def markDepartedIfUnseen (tempTag : TagEvent) (ageOuts : List (String × Int))
    (currentTimeMillis : Int) : TagEvent :=
  match ageOut? ageOuts tempTag.FacilityID with
  | some threshold =>
    if currentTimeMillis - tempTag.Timestamp > threshold then
      { tempTag with EventType := "departed" }
    else tempTag
  | none => tempTag

/-- Modelled from the spec: `statemodel.UpdateTag` (§4.1), reduced to what the
examples need: the record takes the EPC, facility and location of the read, keeps the
later of the two times, and is `Present` unless the read is marked as a departure. -/
def UpdateTag (currentState : Tag) (newTagEvent : TagEvent) (_source : String) : Tag :=
  { Epc := newTagEvent.EpcCode
    State := if newTagEvent.EventType = "departed" then TagState.DepartedExit
             else TagState.Present
    LastRead := max currentState.LastRead newTagEvent.Timestamp
    FacilityID := newTagEvent.FacilityID
    Location := newTagEvent.Location }

/-- A configuration with an EPC filter, both optional sinks configured, and
collaborators that never fail. -/
def env : Env Tag Store String :=
  { EpcFilters := ["30"]
    AgeOuts := [("F1", 600000)]
    CloudConnectorUrl := "http://cloud"
    RulesUrl := "http://rules"
    ArrivalEvent := "arrival"
    emptyTag := Tag.zero
    IsTagWhitelisted := IsTagWhitelisted
    markDepartedIfUnseen := markDepartedIfUnseen
    FindByEpc := FindByEpc
    UpdateTag := UpdateTag
    IsEqual := IsEqual
    Replace := Replace
    ApplyConfidence := fun _ tags _ => Except.ok tags
    UpdateForCycleCount := fun tags => tags }

/-- The configuration `env` with an `ApplyConfidence` that fails. -/
def envConfidenceFails : Env Tag Store String :=
  { env with ApplyConfidence := fun _ _ _ => Except.error "no coefficients" }

/-- Sinks that all succeed. -/
def sinksOk : Sinks Tag String :=
  { SendEvent := fun _ _ => none
    ApplyRules := fun _ _ => none
    pushEventsToCoreData := fun _ _ _ => none }

/-- Sinks that all fail. -/
def sinksDown : Sinks Tag String :=
  { SendEvent := fun _ _ => some "cloud connector down"
    ApplyRules := fun _ _ => some "rules engine down"
    pushEventsToCoreData := fun _ _ _ => some "core data down" }

/-- A read of EPC `3014` by a fixed sensor of facility `F1` at time `1000`. -/
def read1 : TagEvent :=
  { EpcCode := "3014", EventType := "cycle_count", FacilityID := "F1",
    Location := "sensor-1", Timestamp := 1000 }

/-- A read whose EPC does not start with the configured filter `30`. -/
def readOther : TagEvent :=
  { EpcCode := "E200", EventType := "cycle_count", FacilityID := "F1",
    Location := "sensor-1", Timestamp := 1000 }

/-- The record `UpdateTag` makes of `read1`. -/
def tag1 : Tag :=
  { Epc := "3014", State := TagState.Present, LastRead := 1000, FacilityID := "F1",
    Location := "sensor-1" }

/-- A record of another EPC, `Present`, last read at time `0`. -/
def tagSilent : Tag :=
  { Epc := "3099", State := TagState.Present, LastRead := 0, FacilityID := "F1",
    Location := "sensor-2" }

/-- A read of EPC `3014` taken at time `1000000000`. -/
def readNow : TagEvent :=
  { EpcCode := "3014", EventType := "cycle_count", FacilityID := "F1",
    Location := "sensor-1", Timestamp := 1000000000 }

/-- The configuration `env` over a store whose lookup of EPC `3015` fails. -/
def envLookupFails : Env Tag Store String :=
  { env with
    FindByEpc := fun db epc =>
      if epc = "3015" then Except.error "store down" else FindByEpc db epc }

/-- A read of EPC `3015`. -/
def read3015 : TagEvent :=
  { EpcCode := "3015", EventType := "cycle_count", FacilityID := "F1",
    Location := "sensor-1", Timestamp := 1000 }

/-- A read of EPC `3016`. -/
def read3016 : TagEvent :=
  { EpcCode := "3016", EventType := "cycle_count", FacilityID := "F1",
    Location := "sensor-1", Timestamp := 1000 }

/-- An inventory event with the given reads. -/
def event (reads : List TagEvent) : InventoryEvent :=
  { Params := { ControllerId := "rsp-controller", Data := reads } }

end Model

/-! ## `app/routes/handlers/handlers.go`: `Inventory.GetTags` -/

namespace handlers

/-- The type `url.Values` of `net/url`: the values given for each key of the query
string, in the order they were given. -/
abbrev Values := List (String × List String)

/-- The index expression `v[key]`: the values of the key, `nil` when the query does not
have the key. -/
def Values.index (v : Values) (key : String) : List String :=
  match v.find? (fun p => decide (p.1 = key)) with
  | some p => p.2
  | none => []

/-- The method `Values.Get`: the first value of the key, the empty string when there is
none. -/
def Values.Get (v : Values) (key : String) : String :=
  match v.index key with
  | [] => ""
  | value :: _ => value

/-- The method `Values.Set`: the key gets the one value, in place of what it had. -/
def Values.Set (v : Values) (key value : String) : Values :=
  (key, [value]) :: v.filter (fun p => !decide (p.1 = key))

/-- Whether `substr` occurs in `s` as a run of consecutive characters. -/
def containsChars : List Char → List Char → Bool
  | [], substr => substr.isEmpty
  | c :: s, substr => substr.isPrefixOf (c :: s) || containsChars s substr

/-- The function `strings.Contains`. -/
def stringsContains (s substr : String) : Bool :=
  containsChars s.data substr.data

/-- The function `strings.Join`. -/
def stringsJoin : List String → String → String
  | [], _ => ""
  | [a], _ => a
  | a :: b :: rest, sep => a ++ sep ++ stringsJoin (b :: rest) sep

/-- The struct `Inventory`, the receiver of the handlers. -/
structure Inventory (DB : Type) where
  MasterDB : DB
  MaxSize : Int
  Url : String

/-- What `GetTags` computes with, declared outside `handlers.go`.  `T` is `tag.Tag`,
`Raw` what `tag.Retrieve` hands back as `tags` (an `interface{}`, `none` when it is
nil), `Bytes` the JSON text between `json.Marshal` and `json.Unmarshal`, `Sel` what
`getTagForSelectFields` makes of the tags.

* `Select` is the constant `parser.Select`, the key of the `$select` parameter;
* `Retrieve` is `tag.Retrieve`, returning `tags` and `count` (`none` is nil);
* `Marshal` and `Unmarshal` are `json.Marshal` on `tags` and `json.Unmarshal` into a
  `[]tag.Tag`;
* `ApplyConfidence` updates the elements of the slice in place, which is modelled by
  returning the slice;
* the result of `getTagForSelectFields` is an `interface{}`, `none` when it is nil. -/
structure Env (T DB Err Raw Bytes Sel : Type) where
  Select : String
  Retrieve : DB → Values → Int → Except Err (Option Raw × Option Nat)
  Marshal : Option Raw → Except Err Bytes
  Unmarshal : Bytes → Except Err (List T)
  ApplyConfidence : DB → List T → String → Except Err (List T)
  getTagForSelectFields : String → List T → Option Sel

/-- The variable `resultSlice`: the tags themselves, or what `getTagForSelectFields`
returned. -/
inductive ResultSlice (T Sel : Type) where
  | Tags (tagSlice : List T)
  | Selected (fields : Option Sel)
  deriving DecidableEq, Repr

/-- The test `resultSlice != nil`: an interface holding a slice is not nil. -/
def ResultSlice.notNil {T Sel : Type} : ResultSlice T Sel → Bool
  | .Tags _ => true
  | .Selected fields => fields.isSome

/-- The body handed to `web.Respond`, always with `http.StatusOK`: the count alone, or a
`tag.Response` with the results and, when it was asked for, the count. -/
inductive Response (T Sel : Type) where
  | Count (count : Nat)
  | Results (results : ResultSlice T Sel) (count : Option Nat)
  deriving DecidableEq, Repr

/-- Everything observable of one call of `GetTags`.

* `err`: the returned error (`none` is `nil`);
* `response`: what was handed to `web.Respond`, if anything;
* `retrieveCalls`: the queries `tag.Retrieve` was called with;
* `tagSlice`: the value of the variable `tagSlice` after `json.Unmarshal`, `none` when
  that line is not reached or fails;
* `confidenceCalls`: the tag lists `ApplyConfidence` was called with. -/
structure Outcome (T Err Sel : Type) where
  err : Option (Failure Err)
  response : Option (Response T Sel)
  retrieveCalls : List Values
  tagSlice : Option (List T)
  confidenceCalls : List (List T)

section
variable {T DB Err Raw Bytes Sel : Type}

/-- The last part of `GetTags`, from `if len(tagSlice) < 1` on: choose `resultSlice` and
respond. -/
def respondTags (env : Env T DB Err Raw Bytes Sel) (isSelect : Bool) (copyOfSelectQuery : String)
    (count : Option Nat) (tagSlice : List T) : Response T Sel :=
  let resultSlice : ResultSlice T Sel :=
    if isSelect then ResultSlice.Selected (env.getTagForSelectFields copyOfSelectQuery tagSlice)
    else ResultSlice.Tags tagSlice
  match count with
  | some c => if resultSlice.notNil then Response.Results resultSlice (some c)
              else Response.Count c
  | none => Response.Results resultSlice none

/-- The method `(*Inventory).GetTags`; `query` is `request.URL.Query()`.  The metrics
calls are left out.  `applied` is the block `if len(tagSlice) > 0`: the slice as
`ApplyConfidence` left it and the calls of `ApplyConfidence` made, or the error that
makes `GetTags` return. -/
def GetTags (env : Env T DB Err Raw Bytes Sel) (inve : Inventory DB) (query : Values) :
    Outcome T Err Sel :=
  let url := query
  let filterURL := url.index env.Select
  let isSelect := decide (filterURL.length > 0)
  let copyOfSelectQuery := if filterURL.length > 0 then filterURL.headD "" else ""
  let isConfidence := stringsContains (stringsJoin filterURL "") "confidence"
  let url :=
    if isConfidence then
      url.Set env.Select (url.Get env.Select ++ ",facility_id,last_read,location_history")
    else url
  match env.Retrieve inve.MasterDB url inve.MaxSize with
  | .error err =>
    { err := some (Failure.Wrap err "Error retrieving Tag"), response := none,
      retrieveCalls := [url], tagSlice := none, confidenceCalls := [] }
  | .ok (tags, count) =>
    match count, tags with
    | some c, none =>
      { err := none, response := some (Response.Count c),
        retrieveCalls := [url], tagSlice := none, confidenceCalls := [] }
    | _, _ =>
      match env.Marshal tags with
      | .error err =>
        { err := some (Failure.Wrap err "marshaling []interface{} to []bytes"),
          response := none, retrieveCalls := [url], tagSlice := none, confidenceCalls := [] }
      | .ok tagsBytes =>
        match env.Unmarshal tagsBytes with
        | .error err =>
          { err := some (Failure.Wrap err "unmarshaling []bytes to []Tags"),
            response := none, retrieveCalls := [url], tagSlice := none,
            confidenceCalls := [] }
        | .ok tagSlice =>
          let applied : Except Err (List T × List (List T)) :=
            if tagSlice.length > 0 then
              if isConfidence || !isSelect then
                match env.ApplyConfidence inve.MasterDB tagSlice inve.Url with
                | .error err => Except.error err
                | .ok withConfidence => Except.ok (withConfidence, [tagSlice])
              else Except.ok (tagSlice, [])
            else Except.ok (tagSlice, [])
          match applied with
          | .error err =>
            { err := some (Failure.Plain err), response := none, retrieveCalls := [url],
              tagSlice := some tagSlice, confidenceCalls := [tagSlice] }
          | .ok (tagSlice1, calls) =>
            { err := none,
              response := some (respondTags env isSelect copyOfSelectQuery count tagSlice1),
              retrieveCalls := [url], tagSlice := some tagSlice, confidenceCalls := calls }

end

/-- A concrete choice of the collaborators of `GetTags`: the store is the list of its
tags, `tag.Retrieve` hands back all of them (nil for an empty store) without a count,
the JSON round trip gives the tags back, and `ApplyConfidence` succeeds. -/
def modelEnv : Env Model.Tag Model.Store String (List Model.Tag) (List Model.Tag) String :=
  { Select := "$select"
    Retrieve := fun db _ _ => Except.ok (if db.isEmpty then none else some db, none)
    Marshal := fun tags => Except.ok (tags.getD [])
    Unmarshal := fun bytes => Except.ok bytes
    ApplyConfidence := fun _ tags _ => Except.ok tags
    getTagForSelectFields := fun fields _ => some fields }

/-- The collaborators of `modelEnv` with an `ApplyConfidence` that fails. -/
def modelEnvConfidenceFails :
    Env Model.Tag Model.Store String (List Model.Tag) (List Model.Tag) String :=
  { modelEnv with ApplyConfidence := fun _ _ _ => Except.error "no coefficients" }

/-- A handler over a store that holds `tag1`. -/
def modelInventory : Inventory Model.Store :=
  { MasterDB := [Model.tag1], MaxSize := 100, Url := "http://mapping" }

/-- A handler over an empty store. -/
def modelInventoryEmpty : Inventory Model.Store :=
  { MasterDB := [], MaxSize := 100, Url := "http://mapping" }

end handlers

end Inventory

/-! # Theorems -/

namespace Inventory
open jsonrpc

section
variable {T DB Err : Type}

/-! ## The loop -/

theorem rangeLoop_skip (env : Env T DB Err) (db : DB) (source : String) (now : Int)
    (r : TagEvent) (rest : List TagEvent) (st : LoopState T) (hs : skipsRead env r = true) :
    rangeLoop env db source now (r :: rest) st = rangeLoop env db source now rest st := by
  simp [rangeLoop, hs]

theorem rangeLoop_error (env : Env T DB Err) (db : DB) (source : String) (now : Int)
    (r : TagEvent) (rest : List TagEvent) (st : LoopState T) (e : Err)
    (hs : skipsRead env r = false)
    (hf : env.FindByEpc db (prepareRead env source now r).EpcCode = Except.error e) :
    rangeLoop env db source now (r :: rest) st =
      ({ st with findCalls := st.findCalls ++ [(prepareRead env source now r).EpcCode] },
        some (Failure.Wrap e "Error retrieving tag from database")) := by
  simp [rangeLoop, hs, hf]

theorem rangeLoop_ok (env : Env T DB Err) (db : DB) (source : String) (now : Int)
    (r : TagEvent) (rest : List TagEvent) (st : LoopState T) (t : T)
    (hs : skipsRead env r = false)
    (hf : env.FindByEpc db (prepareRead env source now r).EpcCode = Except.ok t) :
    rangeLoop env db source now (r :: rest) st =
      rangeLoop env db source now rest (st.push env source now r t) := by
  simp [rangeLoop, hs, hf, LoopState.push]

/-- A property of the loop state that is kept by every pass through the loop body holds
at the end of the loop. -/
theorem rangeLoop_invariant (env : Env T DB Err) (db : DB) (source : String) (now : Int)
    (l : List TagEvent) (I : LoopState T → Prop)
    (hok : ∀ st r t, r ∈ l → skipsRead env r = false →
      env.FindByEpc db (prepareRead env source now r).EpcCode = Except.ok t →
      I st → I (st.push env source now r t))
    (herr : ∀ (st : LoopState T) epc, I st → I { st with findCalls := st.findCalls ++ [epc] })
    (st : LoopState T) (h0 : I st) :
    I (rangeLoop env db source now l st).1 := by
  induction l generalizing st with
  | nil => simpa [rangeLoop] using h0
  | cons r rest ih =>
    have hok' : ∀ st r t, r ∈ rest → skipsRead env r = false →
        env.FindByEpc db (prepareRead env source now r).EpcCode = Except.ok t →
        I st → I (st.push env source now r t) :=
      fun st r' t hr => hok st r' t (List.mem_cons_of_mem _ hr)
    by_cases hs : skipsRead env r = true
    · rw [rangeLoop_skip env db source now r rest st hs]; exact ih hok' st h0
    · have hs' : skipsRead env r = false := by simpa using hs
      cases hf : env.FindByEpc db (prepareRead env source now r).EpcCode with
      | error e =>
        rw [rangeLoop_error env db source now r rest st e hs' hf]; exact herr st _ h0
      | ok t =>
        rw [rangeLoop_ok env db source now r rest st t hs' hf]
        exact ih hok' _ (hok st r t (List.mem_cons_self _ _) hs' hf h0)

/-- The updated tags are the results of the `UpdateTag` calls, in order. -/
theorem rangeLoop_tagData (env : Env T DB Err) (db : DB) (source : String) (now : Int)
    (l : List TagEvent) :
    (rangeLoop env db source now l (LoopState.init T)).1.tagData =
      (rangeLoop env db source now l (LoopState.init T)).1.updateCalls.map
        (fun c => (c.change env).CurrentState) := by
  refine rangeLoop_invariant env db source now l
    (fun st => st.tagData = st.updateCalls.map (fun c => (c.change env).CurrentState))
    ?_ ?_ _ ?_
  · intro st r t _ _ _ h
    simp [LoopState.push, h, UpdateCall.change]
  · intro st epc h; exact h
  · simp [LoopState.init]

/-- The change list holds the before/after pairs of the `UpdateTag` calls that pass the
guard, in order. -/
theorem rangeLoop_changes (env : Env T DB Err) (db : DB) (source : String) (now : Int)
    (l : List TagEvent) :
    (rangeLoop env db source now l (LoopState.init T)).1.tagStateChangeList =
      ((rangeLoop env db source now l (LoopState.init T)).1.updateCalls.map
        (UpdateCall.change env)).filter (recordsChange env) := by
  refine rangeLoop_invariant env db source now l
    (fun st => st.tagStateChangeList =
      (st.updateCalls.map (UpdateCall.change env)).filter (recordsChange env))
    ?_ ?_ _ ?_
  · intro st r t _ _ _ h
    by_cases hg : recordsChange env ⟨t, env.UpdateTag t (prepareRead env source now r) source⟩
    · simp [LoopState.push, h, UpdateCall.change, hg, List.filter_append]
    · simp [LoopState.push, h, UpdateCall.change, hg, List.filter_append]
  · intro st epc h; exact h
  · simp [LoopState.init]

/-- Every `UpdateTag` call of the loop is made for a read of the batch that is kept, with
the read as prepared, the record found for its EPC, and the source of the batch. -/
theorem rangeLoop_calls (env : Env T DB Err) (db : DB) (source : String) (now : Int)
    (l : List TagEvent) :
    ∀ c ∈ (rangeLoop env db source now l (LoopState.init T)).1.updateCalls,
      c.source = source ∧ env.FindByEpc db c.tempTag.EpcCode = Except.ok c.tagFromDB ∧
      ∃ r ∈ l, skipsRead env r = false ∧ c.tempTag = prepareRead env source now r := by
  refine rangeLoop_invariant env db source now l
    (fun st => ∀ c ∈ st.updateCalls,
      c.source = source ∧ env.FindByEpc db c.tempTag.EpcCode = Except.ok c.tagFromDB ∧
      ∃ r ∈ l, skipsRead env r = false ∧ c.tempTag = prepareRead env source now r)
    ?_ ?_ _ ?_
  · intro st r t hr hs hf h c hc
    simp only [LoopState.push, List.mem_append, List.mem_singleton] at hc
    rcases hc with hc | hc
    · exact h c hc
    · subst hc
      exact ⟨rfl, hf, r, hr, hs, rfl⟩
  · intro st epc h; exact h
  · simp [LoopState.init]

/-- An error of the loop is the wrapped error of a lookup that the loop has made. -/
theorem rangeLoop_error_is_lookup (env : Env T DB Err) (db : DB) (source : String)
    (now : Int) (l : List TagEvent) (st : LoopState T) (f : Failure Err)
    (h : (rangeLoop env db source now l st).2 = some f) :
    ∃ epc e, epc ∈ (rangeLoop env db source now l st).1.findCalls ∧
      env.FindByEpc db epc = Except.error e ∧
      f = Failure.Wrap e "Error retrieving tag from database" := by
  induction l generalizing st with
  | nil => simp [rangeLoop] at h
  | cons r rest ih =>
    by_cases hs : skipsRead env r = true
    · rw [rangeLoop_skip env db source now r rest st hs] at h ⊢; exact ih st h
    · have hs' : skipsRead env r = false := by simpa using hs
      cases hf : env.FindByEpc db (prepareRead env source now r).EpcCode with
      | error e =>
        rw [rangeLoop_error env db source now r rest st e hs' hf] at h ⊢
        refine ⟨_, e, ?_, hf, ?_⟩
        · simp
        · simpa using h.symm
      | ok t =>
        rw [rangeLoop_ok env db source now r rest st t hs' hf] at h ⊢
        exact ih _ h

/-- When the loop runs to its end, the reads handed to `UpdateTag` are the reads of the
batch that are kept, each as prepared, in order. -/
theorem rangeLoop_complete (env : Env T DB Err) (db : DB) (source : String)
    (now : Int) (l : List TagEvent) (st : LoopState T)
    (h : (rangeLoop env db source now l st).2 = none) :
    (rangeLoop env db source now l st).1.updateCalls.map UpdateCall.tempTag =
      st.updateCalls.map UpdateCall.tempTag ++
        (l.filter (fun r => !skipsRead env r)).map (prepareRead env source now) := by
  induction l generalizing st with
  | nil => simp [rangeLoop]
  | cons r rest ih =>
    by_cases hs : skipsRead env r = true
    · rw [rangeLoop_skip env db source now r rest st hs] at h ⊢
      simpa [hs] using ih st h
    · have hs' : skipsRead env r = false := by simpa using hs
      cases hf : env.FindByEpc db (prepareRead env source now r).EpcCode with
      | error e =>
        rw [rangeLoop_error env db source now r rest st e hs' hf] at h
        simp at h
      | ok t =>
        rw [rangeLoop_ok env db source now r rest st t hs' hf] at h ⊢
        rw [ih _ h]
        simp [LoopState.push, hs']

/-! ## The whole function -/

theorem processTagData_loop (env : Env T DB Err) (sinks : Sinks T Err) (url : String)
    (db : DB) (invEvent : InventoryEvent) (source : String) (now : Int) :
    (processTagData env sinks url db invEvent source now).loop =
      (rangeLoop env db source now invEvent.Params.Data (LoopState.init T)).1 := by
  unfold processTagData
  simp only []
  split
  · next h =>
    have : invEvent.Params.Data = [] := List.length_eq_zero.mp h
    simp [this, rangeLoop]
  · split
    · next st e heq => simp [heq]
    · next st heq =>
      split
      · split
        · simp [heq]
        · split <;> simp [heq]
      · simp [heq]

/-- The five ways through `processTagData` after the loop: the loop returned an error;
no read was kept; `tag.Replace` failed; `ApplyConfidence` failed; the batch was stored
and the sinks were started. -/
theorem processTagData_cases (env : Env T DB Err) (sinks : Sinks T Err) (url : String)
    (db : DB) (invEvent : InventoryEvent) (source : String) (now : Int) :
    let res := rangeLoop env db source now invEvent.Params.Data (LoopState.init T)
    let o := processTagData env sinks url db invEvent source now
    (∃ e, res.2 = some e ∧ o.err = some e ∧ o.db = db ∧ o.replaceCalls = [] ∧
        o.dispatched = [] ∧ o.sinkErrorsLogged = []) ∨
    (res.2 = none ∧ res.1.tagData = [] ∧ o.err = none ∧ o.db = db ∧ o.replaceCalls = [] ∧
        o.dispatched = [] ∧ o.sinkErrorsLogged = []) ∨
    (∃ e, res.2 = none ∧ res.1.tagData ≠ [] ∧
        env.Replace db res.1.tagData = (o.db, some e) ∧
        o.err = some (Failure.Wrap e "error replacing tags") ∧
        o.replaceCalls = [res.1.tagData] ∧ o.dispatched = [] ∧ o.sinkErrorsLogged = []) ∨
    (∃ e, res.2 = none ∧ res.1.tagData ≠ [] ∧
        env.Replace db res.1.tagData = (o.db, none) ∧
        env.ApplyConfidence o.db res.1.tagData url = Except.error e ∧
        o.err = some (Failure.Plain e) ∧
        o.replaceCalls = [res.1.tagData] ∧ o.dispatched = [] ∧ o.sinkErrorsLogged = []) ∨
    (∃ tags, res.2 = none ∧ res.1.tagData ≠ [] ∧
        env.Replace db res.1.tagData = (o.db, none) ∧
        env.ApplyConfidence o.db res.1.tagData url = Except.ok tags ∧
        o.err = none ∧ o.replaceCalls = [res.1.tagData] ∧
        o.dispatched = dispatchSinks env invEvent source now (env.UpdateForCycleCount tags)
          res.1.tagStateChangeList ∧
        o.sinkErrorsLogged = o.dispatched.flatMap (runDispatch sinks)) := by
  intro res o
  by_cases hn : invEvent.Params.Data.length = 0
  · have hd : invEvent.Params.Data = [] := List.length_eq_zero.mp hn
    right; left
    simp [res, o, processTagData, hd, rangeLoop, LoopState.init]
  · rcases hres : res with ⟨st, _ | e⟩
    · by_cases ht : st.tagData.length > 0
      · have hne : st.tagData ≠ [] := by
          intro h; simp [h] at ht
        rcases hrep : env.Replace db st.tagData with ⟨db1, _ | e⟩
        · cases hconf : env.ApplyConfidence db1 st.tagData url with
          | error e =>
            right; right; right; left
            refine ⟨e, ?_⟩
            simp only [res] at hres
            simp [o, processTagData, hn, hres, ht, hrep, hconf, hne]
          | ok tags =>
            right; right; right; right
            refine ⟨tags, ?_⟩
            simp only [res] at hres
            simp [o, processTagData, hn, hres, ht, hrep, hconf, hne]
        · right; right; left
          refine ⟨e, ?_⟩
          simp only [res] at hres
          simp [o, processTagData, hn, hres, ht, hrep, hne]
      · have he : st.tagData = [] := by
          cases h : st.tagData with
          | nil => rfl
          | cons a l => simp [h] at ht
        right; left
        simp only [res] at hres
        simp [o, processTagData, hn, hres, he]
    · left
      refine ⟨e, ?_⟩
      simp only [res] at hres
      simp [o, processTagData, hn, hres]

end
end Inventory

namespace Inventory
open jsonrpc

section
variable {T DB Err : Type}

/-! ## C1: which reads yield a `TagStateChange` -/

/-- C1, as stated, fails on the code.  With the store empty, the single read `read1` is
handed to `UpdateTag` with the zero record as previous state and comes back as `tag1`,
a different record, yet the rules engine is started with an empty change list.  With
`tag1` already stored, `read1` read twice leaves the record as it is both times, and
the rules engine is started with two changes whose two sides are equal. -/
theorem C1_counterexample :
    ((processTagData Model.env Model.sinksOk "u" [] (Model.event [Model.read1])
        "fixed" 1500).loop.updateCalls = [⟨Model.Tag.zero, Model.read1, "fixed"⟩] ∧
      Model.env.UpdateTag Model.Tag.zero Model.read1 "fixed" = Model.tag1 ∧
      Model.Tag.zero ≠ Model.tag1 ∧
      Dispatch.ApplyRules "fixed" [] ∈
        (processTagData Model.env Model.sinksOk "u" [] (Model.event [Model.read1])
          "fixed" 1500).dispatched) ∧
    (Model.env.UpdateTag Model.tag1 Model.read1 "fixed" = Model.tag1 ∧
      Dispatch.ApplyRules "fixed" [⟨Model.tag1, Model.tag1⟩, ⟨Model.tag1, Model.tag1⟩] ∈
        (processTagData Model.env Model.sinksOk "u" [Model.tag1]
          (Model.event [Model.read1, Model.read1]) "fixed" 1500).dispatched) := by
  decide

/-- C1, amended: the change list of a batch holds, in order, the before/after pair of
exactly those processed reads for which neither the record found in the store nor the
record returned by `UpdateTag` is the empty tag (`IsEqual(tag.Tag{})`), and this is the
list every `rules.ApplyRules` goroutine is started with, together with the source of the
batch. -/
theorem C1_changes_are_pairs_of_nonempty_records (env : Env T DB Err) (sinks : Sinks T Err)
    (url : String) (db : DB) (invEvent : InventoryEvent) (source : String) (now : Int) :
    (processTagData env sinks url db invEvent source now).loop.tagStateChangeList =
      ((processTagData env sinks url db invEvent source now).loop.updateCalls.map
        (UpdateCall.change env)).filter
        (fun ch => !env.IsEqual ch.PreviousState env.emptyTag &&
          !env.IsEqual ch.CurrentState env.emptyTag) ∧
    ∀ src l, Dispatch.ApplyRules src l ∈
        (processTagData env sinks url db invEvent source now).dispatched →
      src = source ∧
      l = (processTagData env sinks url db invEvent source now).loop.tagStateChangeList := by
  have hg : (fun ch : TagStateChange T => !env.IsEqual ch.PreviousState env.emptyTag &&
      !env.IsEqual ch.CurrentState env.emptyTag) = recordsChange env := by
    funext ch
    cases h1 : env.IsEqual ch.PreviousState env.emptyTag <;>
      cases h2 : env.IsEqual ch.CurrentState env.emptyTag <;>
      simp [recordsChange, h1, h2]
  refine ⟨?_, ?_⟩
  · rw [processTagData_loop, hg]
    exact rangeLoop_changes env db source now invEvent.Params.Data
  · intro src l hmem
    rw [processTagData_loop]
    rcases processTagData_cases env sinks url db invEvent source now with
      ⟨e, _, _, _, _, hd, _⟩ | ⟨_, _, _, _, _, hd, _⟩ | ⟨e, _, _, _, _, _, hd, _⟩ |
      ⟨e, _, _, _, _, _, _, hd, _⟩ | ⟨tags, _, _, _, _, _, _, hd, _⟩
    · rw [hd] at hmem; simp at hmem
    · rw [hd] at hmem; simp at hmem
    · rw [hd] at hmem; simp at hmem
    · rw [hd] at hmem; simp at hmem
    · rw [hd] at hmem
      unfold dispatchSinks at hmem
      by_cases hc : env.CloudConnectorUrl = "" <;> by_cases hr : env.RulesUrl = "" <;>
        simp [hc, hr] at hmem
      · exact hmem
      · exact hmem

/-! ## C2: the first read of an EPC -/

/-- C2, as stated, fails on the code.  The store is empty and the batch is the single
read `read1`, which passes the filter: `processTagData` makes one updated tag, `tag1`,
hands it to `tag.Replace`, and makes no `TagStateChange` at all. -/
theorem C2_counterexample :
    Model.env.FindByEpc [] Model.read1.EpcCode = Except.ok Model.env.emptyTag ∧
    Model.env.IsTagWhitelisted Model.read1.EpcCode Model.env.EpcFilters = true ∧
    (processTagData Model.env Model.sinksOk "u" [] (Model.event [Model.read1])
      "fixed" 1500).loop.tagData = [Model.tag1] ∧
    (processTagData Model.env Model.sinksOk "u" [] (Model.event [Model.read1])
      "fixed" 1500).loop.tagStateChangeList = [] ∧
    (processTagData Model.env Model.sinksOk "u" [] (Model.event [Model.read1])
      "fixed" 1500).loop.tagStateChangeList.length ≠ 1 := by
  decide

/-- C2, amended: for a batch of one read that passes the EPC filter and whose EPC has no
record in the store (`tag.FindByEpc` returns the empty tag, which `IsEqual` recognises
as empty), `processTagData` makes exactly one updated tag, the result of `UpdateTag` on
the empty record, hands it to `tag.Replace`, and makes no `TagStateChange`. -/
theorem C2_first_read_one_tag_no_change (env : Env T DB Err) (sinks : Sinks T Err)
    (url : String) (db : DB) (controllerId : String) (r : TagEvent) (source : String)
    (now : Int)
    (hpass : env.EpcFilters = [] ∨ env.IsTagWhitelisted r.EpcCode env.EpcFilters = true)
    (hfind : env.FindByEpc db (prepareRead env source now r).EpcCode =
      Except.ok env.emptyTag)
    (hempty : env.IsEqual env.emptyTag env.emptyTag = true) :
    (processTagData env sinks url db ⟨⟨controllerId, [r]⟩⟩ source now).loop.tagData =
      [env.UpdateTag env.emptyTag (prepareRead env source now r) source] ∧
    (processTagData env sinks url db ⟨⟨controllerId, [r]⟩⟩ source now).loop.tagStateChangeList
      = [] ∧
    (processTagData env sinks url db ⟨⟨controllerId, [r]⟩⟩ source now).replaceCalls =
      [[env.UpdateTag env.emptyTag (prepareRead env source now r) source]] := by
  have hs : skipsRead env r = false := by
    rcases hpass with h | h <;> simp [skipsRead, h]
  have hloop : rangeLoop env db source now [r] (LoopState.init T) =
      ((LoopState.init T).push env source now r env.emptyTag, none) := by
    rw [rangeLoop_ok env db source now r [] _ env.emptyTag hs hfind]
    simp [rangeLoop]
  have hdata : ((LoopState.init T).push env source now r env.emptyTag).tagData =
      [env.UpdateTag env.emptyTag (prepareRead env source now r) source] := by
    simp [LoopState.push, LoopState.init]
  refine ⟨?_, ?_, ?_⟩
  · rw [processTagData_loop]
    show (rangeLoop env db source now [r] (LoopState.init T)).1.tagData = _
    rw [hloop, hdata]
  · rw [processTagData_loop]
    show (rangeLoop env db source now [r] (LoopState.init T)).1.tagStateChangeList = _
    rw [hloop]
    simp [LoopState.push, LoopState.init, recordsChange, hempty]
  · rcases processTagData_cases env sinks url db ⟨⟨controllerId, [r]⟩⟩ source now with
      ⟨e, he, _⟩ | ⟨_, ht, _⟩ | ⟨e, _, _, _, _, hr, _⟩ |
      ⟨e, _, _, _, _, _, hr, _⟩ | ⟨tags, _, _, _, _, _, hr, _⟩
    · simp only [hloop] at he; simp at he
    · simp only [hloop, hdata] at ht; simp at ht
    · simp only [hloop, hdata] at hr; exact hr
    · simp only [hloop, hdata] at hr; exact hr
    · simp only [hloop, hdata] at hr; exact hr

/-- C2, amended, at the batch of the single read `read1` against the empty store. -/
theorem C2_first_read_witness :
    (processTagData Model.env Model.sinksOk "u" [] ⟨⟨"rsp-controller", [Model.read1]⟩⟩
        "fixed" 1500).loop.tagData =
      [Model.env.UpdateTag Model.env.emptyTag
        (prepareRead Model.env "fixed" 1500 Model.read1) "fixed"] ∧
    (processTagData Model.env Model.sinksOk "u" [] ⟨⟨"rsp-controller", [Model.read1]⟩⟩
        "fixed" 1500).loop.tagStateChangeList = [] ∧
    (processTagData Model.env Model.sinksOk "u" [] ⟨⟨"rsp-controller", [Model.read1]⟩⟩
        "fixed" 1500).replaceCalls =
      [[Model.env.UpdateTag Model.env.emptyTag
        (prepareRead Model.env "fixed" 1500 Model.read1) "fixed"]] :=
  C2_first_read_one_tag_no_change Model.env Model.sinksOk "u" [] "rsp-controller"
    Model.read1 "fixed" 1500 (Or.inr (by decide)) (by decide) (by decide)

end
end Inventory

namespace Inventory
open jsonrpc

section
variable {T DB Err : Type}

/-! ## C3: what an error leaves behind -/

/-- C3, as stated, fails on the code.  `ApplyConfidence` is called after `tag.Replace`:
when it fails, `processTagData` returns its error although `tag.Replace` has been called
with the tag of the batch, has succeeded, and the record is in the store. -/
theorem C3_counterexample :
    (processTagData Model.envConfidenceFails Model.sinksOk "u" []
      (Model.event [Model.read1]) "fixed" 1500).err =
        some (Failure.Plain "no coefficients") ∧
    (processTagData Model.envConfidenceFails Model.sinksOk "u" []
      (Model.event [Model.read1]) "fixed" 1500).replaceCalls = [[Model.tag1]] ∧
    Model.envConfidenceFails.Replace [] [Model.tag1] = ([Model.tag1], none) ∧
    (processTagData Model.envConfidenceFails Model.sinksOk "u" []
      (Model.event [Model.read1]) "fixed" 1500).db = [Model.tag1] := by
  decide

/-- C3, amended: when `processTagData` returns a non-nil error, no sink has been started,
and the error is one of three.  It is the wrapped error of a failed `tag.FindByEpc`, and
then `tag.Replace` has not been called and the store is as before; or it is the wrapped
error of `tag.Replace`, called once with the updated tags, the store being what that call
left; or it is the error of `ApplyConfidence`, and then `tag.Replace` has been called
with the updated tags and has succeeded, so the batch is in the store. -/
theorem C3_error_starts_no_sink (env : Env T DB Err) (sinks : Sinks T Err)
    (url : String) (db : DB) (invEvent : InventoryEvent) (source : String) (now : Int)
    (herr : (processTagData env sinks url db invEvent source now).err ≠ none) :
    (processTagData env sinks url db invEvent source now).dispatched = [] ∧
    (processTagData env sinks url db invEvent source now).sinkErrorsLogged = [] ∧
    ((∃ epc e, epc ∈ (processTagData env sinks url db invEvent source now).loop.findCalls ∧
        env.FindByEpc db epc = Except.error e ∧
        (processTagData env sinks url db invEvent source now).err =
          some (Failure.Wrap e "Error retrieving tag from database") ∧
        (processTagData env sinks url db invEvent source now).replaceCalls = [] ∧
        (processTagData env sinks url db invEvent source now).db = db) ∨
     (∃ e, (processTagData env sinks url db invEvent source now).err =
          some (Failure.Wrap e "error replacing tags") ∧
        (processTagData env sinks url db invEvent source now).replaceCalls =
          [(processTagData env sinks url db invEvent source now).loop.tagData] ∧
        env.Replace db (processTagData env sinks url db invEvent source now).loop.tagData =
          ((processTagData env sinks url db invEvent source now).db, some e)) ∨
     (∃ e, (processTagData env sinks url db invEvent source now).err =
          some (Failure.Plain e) ∧
        (processTagData env sinks url db invEvent source now).replaceCalls =
          [(processTagData env sinks url db invEvent source now).loop.tagData] ∧
        env.Replace db (processTagData env sinks url db invEvent source now).loop.tagData =
          ((processTagData env sinks url db invEvent source now).db, none) ∧
        env.ApplyConfidence (processTagData env sinks url db invEvent source now).db
          (processTagData env sinks url db invEvent source now).loop.tagData url =
          Except.error e)) := by
  rw [processTagData_loop]
  rcases processTagData_cases env sinks url db invEvent source now with
    ⟨f, hres, he, hdb, hr, hd, hl⟩ | ⟨_, _, he, _⟩ | ⟨e, _, _, hrep, he, hr, hd, hl⟩ |
    ⟨e, _, _, hrep, hconf, he, hr, hd, hl⟩ | ⟨tags, _, _, _, _, he, _⟩
  · obtain ⟨epc, e, hmem, hf, hfe⟩ :=
      rangeLoop_error_is_lookup env db source now invEvent.Params.Data _ f hres
    exact ⟨hd, hl, Or.inl ⟨epc, e, hmem, hf, by rw [he, hfe], hr, hdb⟩⟩
  · exact absurd he herr
  · exact ⟨hd, hl, Or.inr (Or.inl ⟨e, he, hr, hrep⟩)⟩
  · exact ⟨hd, hl, Or.inr (Or.inr ⟨e, he, hr, hrep, hconf⟩)⟩
  · exact absurd he herr

/-- C3, amended, at a batch whose `ApplyConfidence` fails: the error is returned and no
sink has been started. -/
theorem C3_error_witness :
    (processTagData Model.envConfidenceFails Model.sinksDown "u" []
      (Model.event [Model.read1]) "fixed" 1500).err ≠ none ∧
    (processTagData Model.envConfidenceFails Model.sinksDown "u" []
      (Model.event [Model.read1]) "fixed" 1500).dispatched = [] ∧
    (processTagData Model.envConfidenceFails Model.sinksDown "u" []
      (Model.event [Model.read1]) "fixed" 1500).sinkErrorsLogged = [] :=
  ⟨by decide,
    (C3_error_starts_no_sink Model.envConfidenceFails Model.sinksDown "u" []
      (Model.event [Model.read1]) "fixed" 1500 (by decide)).1,
    (C3_error_starts_no_sink Model.envConfidenceFails Model.sinksDown "u" []
      (Model.event [Model.read1]) "fixed" 1500 (by decide)).2.1⟩

/-! ## C4: the sinks and the return value -/

/-- C4: when every lookup the batch makes succeeds, and `tag.Replace` and `ApplyConfidence`
succeed on the updated tags if they are called, `processTagData` returns nil whatever the
three sinks answer; for any two behaviours of the sinks the returned error, the store and
the goroutines started are the same; and when a tag was updated, the goroutines started
are those of the configuration alone: the cloud connector when `CloudConnectorUrl` is
set, the rules engine when `RulesUrl` is set, and the core-data push. -/
theorem C4_sinks_do_not_change_the_result (env : Env T DB Err) (sinks sinks' : Sinks T Err)
    (url : String) (db : DB) (invEvent : InventoryEvent) (source : String) (now : Int)
    (hfind : ∀ epc ∈ (processTagData env sinks url db invEvent source now).loop.findCalls,
      ∃ t, env.FindByEpc db epc = Except.ok t)
    (hreplace : ∀ tags ∈ (processTagData env sinks url db invEvent source now).replaceCalls,
      (env.Replace db tags).2 = none)
    (hconf : ∀ tags ∈ (processTagData env sinks url db invEvent source now).replaceCalls,
      ∃ tags', env.ApplyConfidence (env.Replace db tags).1 tags url = Except.ok tags') :
    (processTagData env sinks url db invEvent source now).err = none ∧
    (processTagData env sinks' url db invEvent source now).err = none ∧
    (processTagData env sinks' url db invEvent source now).db =
      (processTagData env sinks url db invEvent source now).db ∧
    (processTagData env sinks' url db invEvent source now).dispatched =
      (processTagData env sinks url db invEvent source now).dispatched ∧
    ((processTagData env sinks url db invEvent source now).loop.tagData ≠ [] →
      ∃ tags, (processTagData env sinks url db invEvent source now).dispatched =
        (if env.CloudConnectorUrl ≠ "" then [Dispatch.SendEvent invEvent tags] else []) ++
        (if env.RulesUrl ≠ "" then [Dispatch.ApplyRules source
          (processTagData env sinks url db invEvent source now).loop.tagStateChangeList]
          else []) ++
        [Dispatch.pushEventsToCoreData now invEvent.Params.ControllerId tags]) := by
  rw [processTagData_loop] at hfind ⊢
  rcases processTagData_cases env sinks url db invEvent source now with
    ⟨f, hres, _⟩ | ⟨hres, ht, he, hdb, hr, hd, _⟩ | ⟨e, _, _, hrep, _, hr, _⟩ |
    ⟨e, _, _, hrep, hc, _, hr, _⟩ | ⟨tags, hres, ht, hrep, hc, he, hr, hd, _⟩
  · obtain ⟨epc, e, hmem, hf, _⟩ :=
      rangeLoop_error_is_lookup env db source now invEvent.Params.Data _ f hres
    obtain ⟨t, hok⟩ := hfind epc hmem
    rw [hf] at hok; cases hok
  · rcases processTagData_cases env sinks' url db invEvent source now with
      ⟨f, hres', _⟩ | ⟨_, _, he', hdb', _, hd', _⟩ | ⟨e, _, ht', _⟩ |
      ⟨e, _, ht', _⟩ | ⟨tags, _, ht', _⟩
    · rw [hres] at hres'; cases hres'
    · exact ⟨he, he', by rw [hdb, hdb'], by rw [hd, hd'], fun h => absurd ht h⟩
    · exact absurd ht ht'
    · exact absurd ht ht'
    · exact absurd ht ht'
  · have := hreplace _ (by rw [hr]; exact List.mem_singleton.mpr rfl)
    rw [hrep] at this; cases this
  · obtain ⟨tags', h'⟩ := hconf _ (by rw [hr]; exact List.mem_singleton.mpr rfl)
    rw [hrep] at h'
    rw [hc] at h'; cases h'
  · rcases processTagData_cases env sinks' url db invEvent source now with
      ⟨f, hres', _⟩ | ⟨_, ht', _⟩ | ⟨e, _, _, hrep', _⟩ |
      ⟨e, _, _, hrep', hc', _⟩ | ⟨tags', _, _, hrep', hc', he', _, hd', _⟩
    · rw [hres] at hres'; cases hres'
    · exact absurd ht' ht
    · rw [hrep] at hrep'
      exact absurd (congrArg Prod.snd hrep') (by simp)
    · rw [hrep] at hrep'
      have hdb : (processTagData env sinks' url db invEvent source now).db =
          (processTagData env sinks url db invEvent source now).db :=
        (congrArg Prod.fst hrep').symm
      rw [hdb, hc] at hc'; cases hc'
    · rw [hrep] at hrep'
      have hdb : (processTagData env sinks' url db invEvent source now).db =
          (processTagData env sinks url db invEvent source now).db :=
        (congrArg Prod.fst hrep').symm
      rw [hdb, hc] at hc'
      cases hc'
      refine ⟨he, he', hdb, by rw [hd, hd'], fun _ => ⟨env.UpdateForCycleCount tags, ?_⟩⟩
      rw [hd]; rfl

theorem Model.FindByEpc_ok (db : Model.Store) (epc : String) :
    ∃ t, Model.FindByEpc db epc = Except.ok t := by
  unfold Model.FindByEpc
  split <;> exact ⟨_, rfl⟩

/-- C4 at a batch of one read, with all sinks up and with all sinks down: nil is
returned and the same three goroutines are started. -/
theorem C4_sinks_witness :
    (processTagData Model.env Model.sinksOk "u" [] (Model.event [Model.read1])
      "fixed" 1500).err = none ∧
    (processTagData Model.env Model.sinksDown "u" [] (Model.event [Model.read1])
      "fixed" 1500).err = none ∧
    (processTagData Model.env Model.sinksDown "u" [] (Model.event [Model.read1])
      "fixed" 1500).dispatched =
    (processTagData Model.env Model.sinksOk "u" [] (Model.event [Model.read1])
      "fixed" 1500).dispatched ∧
    (processTagData Model.env Model.sinksDown "u" [] (Model.event [Model.read1])
      "fixed" 1500).sinkErrorsLogged = ["cloud connector down", "rules engine down"] :=
  have h := C4_sinks_do_not_change_the_result Model.env Model.sinksOk Model.sinksDown "u" []
    (Model.event [Model.read1]) "fixed" 1500
    (fun epc _ => Model.FindByEpc_ok [] epc)
    (fun _ _ => rfl)
    (fun tags _ => ⟨tags, rfl⟩)
  ⟨h.1, h.2.1, h.2.2.2.1, by decide⟩

end
end Inventory

namespace Inventory
open jsonrpc

section
variable {T DB Err : Type}

/-! ## C5: reads stopped by the EPC filter -/

/-- A read that the filter stops leaves the loop as it would be without the read. -/
theorem rangeLoop_erase_skipped (env : Env T DB Err) (db : DB) (source : String) (now : Int)
    (pre post : List TagEvent) (r : TagEvent) (st : LoopState T)
    (hs : skipsRead env r = true) :
    rangeLoop env db source now (pre ++ r :: post) st =
      rangeLoop env db source now (pre ++ post) st := by
  induction pre generalizing st with
  | nil => simpa using rangeLoop_skip env db source now r post st hs
  | cons a pre ih =>
    by_cases ha : skipsRead env a = true
    · simp only [List.cons_append]
      rw [rangeLoop_skip env db source now a _ st ha,
        rangeLoop_skip env db source now a _ st ha]
      exact ih st
    · have ha' : skipsRead env a = false := by simpa using ha
      simp only [List.cons_append]
      cases hf : env.FindByEpc db (prepareRead env source now a).EpcCode with
      | error e =>
        rw [rangeLoop_error env db source now a _ st e ha' hf,
          rangeLoop_error env db source now a _ st e ha' hf]
      | ok t =>
        rw [rangeLoop_ok env db source now a _ st t ha' hf,
          rangeLoop_ok env db source now a _ st t ha' hf]
        exact ih _

/-- Two events on which the loop ends alike are processed alike, as far as the store, the
returned error and the calls of `tag.Replace` go. -/
theorem processTagData_congr_loop (env : Env T DB Err) (sinks : Sinks T Err) (url : String)
    (db : DB) (ev ev' : InventoryEvent) (source : String) (now : Int)
    (h : rangeLoop env db source now ev.Params.Data (LoopState.init T) =
      rangeLoop env db source now ev'.Params.Data (LoopState.init T)) :
    (processTagData env sinks url db ev source now).loop =
      (processTagData env sinks url db ev' source now).loop ∧
    (processTagData env sinks url db ev source now).replaceCalls =
      (processTagData env sinks url db ev' source now).replaceCalls ∧
    (processTagData env sinks url db ev source now).db =
      (processTagData env sinks url db ev' source now).db ∧
    (processTagData env sinks url db ev source now).err =
      (processTagData env sinks url db ev' source now).err := by
  refine ⟨by rw [processTagData_loop, processTagData_loop, h], ?_⟩
  have c1 := processTagData_cases env sinks url db ev source now
  have c2 := processTagData_cases env sinks url db ev' source now
  simp only [h] at c1
  rcases c1 with
    ⟨f, hres, he, hdb, hr, _⟩ | ⟨hres, ht, he, hdb, hr, _⟩ | ⟨e, hres, ht, hrep, he, hr, _⟩ |
    ⟨e, hres, ht, hrep, hc, he, hr, _⟩ | ⟨tags, hres, ht, hrep, hc, he, hr, _⟩
  · rcases c2 with
      ⟨f', hres', he', hdb', hr', _⟩ | ⟨hres', _⟩ | ⟨e', hres', _⟩ | ⟨e', hres', _⟩ |
      ⟨tags', hres', _⟩
    · rw [hres] at hres'
      exact ⟨by rw [hr, hr'], by rw [hdb, hdb'], by rw [he, he', Option.some.inj hres']⟩
    all_goals (rw [hres] at hres'; cases hres')
  · rcases c2 with
      ⟨f', hres', _⟩ | ⟨_, _, he', hdb', hr', _⟩ | ⟨e', _, ht', _⟩ | ⟨e', _, ht', _⟩ |
      ⟨tags', _, ht', _⟩
    · rw [hres] at hres'; cases hres'
    · exact ⟨by rw [hr, hr'], by rw [hdb, hdb'], by rw [he, he']⟩
    all_goals exact absurd ht ht'
  · rcases c2 with
      ⟨f', hres', _⟩ | ⟨_, ht', _⟩ | ⟨e', _, _, hrep', he', hr', _⟩ |
      ⟨e', _, _, hrep', _⟩ | ⟨tags', _, _, hrep', _⟩
    · rw [hres] at hres'; cases hres'
    · exact absurd ht' ht
    · rw [hrep] at hrep'
      have h1 := congrArg Prod.fst hrep'
      have h2 := congrArg Prod.snd hrep'
      simp only [Option.some.injEq] at h1 h2
      exact ⟨by rw [hr, hr'], h1, by rw [he, he', h2]⟩
    · rw [hrep] at hrep'; exact absurd (congrArg Prod.snd hrep') (by simp)
    · rw [hrep] at hrep'; exact absurd (congrArg Prod.snd hrep') (by simp)
  · rcases c2 with
      ⟨f', hres', _⟩ | ⟨_, ht', _⟩ | ⟨e', _, _, hrep', _⟩ |
      ⟨e', _, _, hrep', hc', he', hr', _⟩ | ⟨tags', _, _, hrep', hc', _⟩
    · rw [hres] at hres'; cases hres'
    · exact absurd ht' ht
    · rw [hrep] at hrep'; exact absurd (congrArg Prod.snd hrep') (by simp)
    · rw [hrep] at hrep'
      have h1 : (processTagData env sinks url db ev source now).db =
          (processTagData env sinks url db ev' source now).db := congrArg Prod.fst hrep'
      rw [← h1, hc] at hc'
      exact ⟨by rw [hr, hr'], h1, by rw [he, he', Except.error.inj hc']⟩
    · rw [hrep] at hrep'
      have h1 : (processTagData env sinks url db ev source now).db =
          (processTagData env sinks url db ev' source now).db := congrArg Prod.fst hrep'
      rw [← h1, hc] at hc'; cases hc'
  · rcases c2 with
      ⟨f', hres', _⟩ | ⟨_, ht', _⟩ | ⟨e', _, _, hrep', _⟩ |
      ⟨e', _, _, hrep', hc', _⟩ | ⟨tags', _, _, hrep', hc', he', hr', _⟩
    · rw [hres] at hres'; cases hres'
    · exact absurd ht' ht
    · rw [hrep] at hrep'; exact absurd (congrArg Prod.snd hrep') (by simp)
    · rw [hrep] at hrep'
      have h1 : (processTagData env sinks url db ev source now).db =
          (processTagData env sinks url db ev' source now).db := congrArg Prod.fst hrep'
      rw [← h1, hc] at hc'; cases hc'
    · rw [hrep] at hrep'
      have h1 : (processTagData env sinks url db ev source now).db =
          (processTagData env sinks url db ev' source now).db := congrArg Prod.fst hrep'
      exact ⟨by rw [hr, hr'], h1, by rw [he, he']⟩

/-- C5: with a non-empty `EpcFilters`, a read whose `EpcCode` is not whitelisted leaves no
trace in the state engine: the lookups made, the `UpdateTag` calls made, the updated-tag
list, the `TagStateChange` list, the argument of `tag.Replace`, the store and the returned
error are those of the batch without that read. -/
theorem C5_filtered_read_never_reaches_the_state_engine (env : Env T DB Err)
    (sinks : Sinks T Err) (url : String) (db : DB) (controllerId : String)
    (pre post : List TagEvent) (r : TagEvent) (source : String) (now : Int)
    (hfilters : env.EpcFilters ≠ [])
    (hnot : env.IsTagWhitelisted r.EpcCode env.EpcFilters = false) :
    (processTagData env sinks url db ⟨⟨controllerId, pre ++ r :: post⟩⟩ source now).loop =
      (processTagData env sinks url db ⟨⟨controllerId, pre ++ post⟩⟩ source now).loop ∧
    (processTagData env sinks url db ⟨⟨controllerId, pre ++ r :: post⟩⟩ source now).replaceCalls
      = (processTagData env sinks url db ⟨⟨controllerId, pre ++ post⟩⟩ source now).replaceCalls ∧
    (processTagData env sinks url db ⟨⟨controllerId, pre ++ r :: post⟩⟩ source now).db =
      (processTagData env sinks url db ⟨⟨controllerId, pre ++ post⟩⟩ source now).db ∧
    (processTagData env sinks url db ⟨⟨controllerId, pre ++ r :: post⟩⟩ source now).err =
      (processTagData env sinks url db ⟨⟨controllerId, pre ++ post⟩⟩ source now).err := by
  have hs : skipsRead env r = true := by
    have hlen : 0 < env.EpcFilters.length := List.length_pos.mpr hfilters
    simp [skipsRead, hnot, hlen]
  exact processTagData_congr_loop env sinks url db _ _ source now
    (rangeLoop_erase_skipped env db source now pre post r _ hs)

/-- C5 at the batch `[read1, readOther, read1]`, whose middle read does not match the
filter `30`: the lookups and the `UpdateTag` calls are those of the two other reads. -/
theorem C5_filtered_read_witness :
    (processTagData Model.env Model.sinksOk "u" []
      ⟨⟨"c", [Model.read1] ++ Model.readOther :: [Model.read1]⟩⟩ "fixed" 1500).loop =
    (processTagData Model.env Model.sinksOk "u" []
      ⟨⟨"c", [Model.read1] ++ [Model.read1]⟩⟩ "fixed" 1500).loop ∧
    (processTagData Model.env Model.sinksOk "u" []
      ⟨⟨"c", [Model.read1] ++ Model.readOther :: [Model.read1]⟩⟩ "fixed" 1500).loop.findCalls
      = ["3014", "3014"] :=
  ⟨(C5_filtered_read_never_reaches_the_state_engine Model.env Model.sinksOk "u" [] "c"
      [Model.read1] [Model.read1] Model.readOther "fixed" 1500 (by decide) (by decide)).1,
    by decide⟩

/-! ## C6: the counter of filtered reads -/

/-- C6 fails on the code: `tagsFiltered` is set to `0` and never incremented, so the line
`Filtered %d Tags.` prints `0` whenever it is reached.  In the batch
`[readOther, read1]` the first read is discarded by the filter `30` (one discarded read,
one `UpdateTag` call), and the logged count is `0`. -/
theorem C6_tagsFiltered_stays_zero :
    (∀ (env : Env T DB Err) (sinks : Sinks T Err) (url : String) (db : DB)
        (invEvent : InventoryEvent) (source : String) (now : Int),
      (processTagData env sinks url db invEvent source now).tagsFilteredLogged = none ∨
      (processTagData env sinks url db invEvent source now).tagsFilteredLogged = some 0) ∧
    (([Model.readOther, Model.read1].filter (skipsRead Model.env)).length = 1 ∧
      (processTagData Model.env Model.sinksOk "u" []
        (Model.event [Model.readOther, Model.read1]) "fixed" 1500).loop.updateCalls.length
        = 1 ∧
      (processTagData Model.env Model.sinksOk "u" []
        (Model.event [Model.readOther, Model.read1]) "fixed" 1500).tagsFilteredLogged
        = some 0) := by
  refine ⟨?_, by decide⟩
  intro env sinks url db invEvent source now
  unfold processTagData
  simp only []
  split
  · exact Or.inl rfl
  · split
    · exact Or.inl rfl
    · split
      · split
        · exact Or.inr rfl
        · split <;> exact Or.inr rfl
      · exact Or.inr rfl

/-! ## C7: reads of a handheld -/

/-- The loop in closed form.  The reads that reach the lookup are the reads of the batch
that the filter keeps, each as prepared; the loop goes through them up to the first one
whose lookup fails; for each of these `UpdateTag` is called with the record found, the
prepared read and the source, and its result is appended to the updated tags. -/
theorem rangeLoop_closed_form (env : Env T DB Err) (db : DB) (source : String) (now : Int)
    (l : List TagEvent) (st : LoopState T) :
    (rangeLoop env db source now l st).1.tagData = st.tagData ++
      ((((l.filter (fun r => !skipsRead env r)).map (prepareRead env source now)).takeWhile
        (fun r => match env.FindByEpc db r.EpcCode with
          | Except.ok _ => true
          | Except.error _ => false)).filterMap
        (fun r => match env.FindByEpc db r.EpcCode with
          | Except.ok prev => some (env.UpdateTag prev r source)
          | Except.error _ => none)) ∧
    (rangeLoop env db source now l st).1.updateCalls = st.updateCalls ++
      ((((l.filter (fun r => !skipsRead env r)).map (prepareRead env source now)).takeWhile
        (fun r => match env.FindByEpc db r.EpcCode with
          | Except.ok _ => true
          | Except.error _ => false)).filterMap
        (fun r => match env.FindByEpc db r.EpcCode with
          | Except.ok prev => some ⟨prev, r, source⟩
          | Except.error _ => none)) := by
  induction l generalizing st with
  | nil => simp [rangeLoop]
  | cons r rest ih =>
    by_cases hs : skipsRead env r = true
    · rw [rangeLoop_skip env db source now r rest st hs]
      simpa [hs] using ih st
    · have hs' : skipsRead env r = false := by simpa using hs
      cases hf : env.FindByEpc db (prepareRead env source now r).EpcCode with
      | error e =>
        rw [rangeLoop_error env db source now r rest st e hs' hf]
        simp [hs', hf, List.takeWhile_cons]
      | ok t =>
        rw [rangeLoop_ok env db source now r rest st t hs' hf]
        obtain ⟨h1, h2⟩ := ih (st.push env source now r t)
        rw [h1, h2]
        simp [hs', hf, List.takeWhile_cons, LoopState.push]

/-- C7, as stated, fails on the code.  In this handheld batch both reads pass the filter
`30`, and the lookup of the first one fails: `processTagData` returns that error at
once, so the second read, `3016`, is never handed to `UpdateTag`: no call is made, no
tag is updated, `tag.Replace` is not called and the store stays empty. -/
theorem C7_counterexample :
    Model.envLookupFails.IsTagWhitelisted Model.read3016.EpcCode
      Model.envLookupFails.EpcFilters = true ∧
    (processTagData Model.envLookupFails Model.sinksOk "u" []
      (Model.event [Model.read3015, Model.read3016]) "handheld" 1500).err =
        some (Failure.Wrap "store down" "Error retrieving tag from database") ∧
    (processTagData Model.envLookupFails Model.sinksOk "u" []
      (Model.event [Model.read3015, Model.read3016]) "handheld" 1500).loop.updateCalls = [] ∧
    (processTagData Model.envLookupFails Model.sinksOk "u" []
      (Model.event [Model.read3015, Model.read3016]) "handheld" 1500).loop.tagData = [] ∧
    (processTagData Model.envLookupFails Model.sinksOk "u" []
      (Model.event [Model.read3015, Model.read3016]) "handheld" 1500).replaceCalls = [] ∧
    (processTagData Model.envLookupFails Model.sinksOk "u" []
      (Model.event [Model.read3015, Model.read3016]) "handheld" 1500).db = [] := by
  decide

/-- C7, amended: in a batch with source `"handheld"`, the reads handed to
`statemodel.UpdateTag` are, in order, the reads of the batch that pass the EPC filter
and come before the first one whose `tag.FindByEpc` lookup fails (all of them when no
lookup fails).  Each is handed over as `markDepartedIfUnseen` left it, but with
`EventType` set to `statemodel.ArrivalEvent`, together with the record found for its
EPC and the source; the updated tags are the results of exactly these calls, and they
are what `tag.Replace` is called with. -/
theorem C7_handheld_reads_reach_UpdateTag_as_arrivals (env : Env T DB Err)
    (sinks : Sinks T Err) (url : String) (db : DB) (invEvent : InventoryEvent) (now : Int) :
    (processTagData env sinks url db invEvent "handheld" now).loop.tagData =
      ((((invEvent.Params.Data.filter (fun r =>
            decide (env.EpcFilters.length = 0) ||
              env.IsTagWhitelisted r.EpcCode env.EpcFilters)).map
          (fun r => { env.markDepartedIfUnseen r env.AgeOuts now with
            EventType := env.ArrivalEvent })).takeWhile
        (fun r => match env.FindByEpc db r.EpcCode with
          | Except.ok _ => true
          | Except.error _ => false)).filterMap
        (fun r => match env.FindByEpc db r.EpcCode with
          | Except.ok prev => some (env.UpdateTag prev r "handheld")
          | Except.error _ => none)) ∧
    (processTagData env sinks url db invEvent "handheld" now).loop.updateCalls =
      ((((invEvent.Params.Data.filter (fun r =>
            decide (env.EpcFilters.length = 0) ||
              env.IsTagWhitelisted r.EpcCode env.EpcFilters)).map
          (fun r => { env.markDepartedIfUnseen r env.AgeOuts now with
            EventType := env.ArrivalEvent })).takeWhile
        (fun r => match env.FindByEpc db r.EpcCode with
          | Except.ok _ => true
          | Except.error _ => false)).filterMap
        (fun r => match env.FindByEpc db r.EpcCode with
          | Except.ok prev => some ⟨prev, r, "handheld"⟩
          | Except.error _ => none)) ∧
    (∀ c ∈ (processTagData env sinks url db invEvent "handheld" now).loop.updateCalls,
      c.tempTag.EventType = env.ArrivalEvent) ∧
    (∀ tags ∈ (processTagData env sinks url db invEvent "handheld" now).replaceCalls,
      tags = (processTagData env sinks url db invEvent "handheld" now).loop.tagData) := by
  have hp : (fun r : TagEvent => !skipsRead env r) = (fun r =>
      decide (env.EpcFilters.length = 0) ||
        env.IsTagWhitelisted r.EpcCode env.EpcFilters) := by
    funext r
    cases hE : env.EpcFilters <;> simp [skipsRead, hE]
  have hm : prepareRead env "handheld" now = (fun r =>
      { env.markDepartedIfUnseen r env.AgeOuts now with
        EventType := env.ArrivalEvent }) := by
    funext r; simp [prepareRead]
  obtain ⟨h1, h2⟩ :=
    rangeLoop_closed_form env db "handheld" now invEvent.Params.Data (LoopState.init T)
  rw [hp, hm] at h1 h2
  refine ⟨?_, ?_, ?_, ?_⟩
  · rw [processTagData_loop, h1]; simp [LoopState.init]
  · rw [processTagData_loop, h2]; simp [LoopState.init]
  · intro c hc
    rw [processTagData_loop] at hc
    obtain ⟨_, _, r, _, _, hr⟩ :=
      rangeLoop_calls env db "handheld" now invEvent.Params.Data c hc
    rw [hr]
    simp [prepareRead]
  · intro tags htags
    rw [processTagData_loop]
    rcases processTagData_cases env sinks url db invEvent "handheld" now with
      ⟨f, _, _, _, hr, _⟩ | ⟨_, _, _, _, hr, _⟩ | ⟨e, _, _, _, _, hr, _⟩ |
      ⟨e, _, _, _, _, _, hr, _⟩ | ⟨tags', _, _, _, _, _, hr, _⟩
    · rw [hr] at htags; simp at htags
    · rw [hr] at htags; simp at htags
    · rw [hr] at htags; simpa using htags
    · rw [hr] at htags; simpa using htags
    · rw [hr] at htags; simpa using htags

/-- C7, amended, at a handheld batch: `read1` comes in as `cycle_count`, is old enough
for `markDepartedIfUnseen` to mark it as a departure, and the tag `UpdateTag` makes of it
is that of an arrival, `Present`; `readOther` does not pass the filter. -/
theorem C7_handheld_witness :
    (Model.markDepartedIfUnseen Model.read1 Model.env.AgeOuts 1000000000).EventType
      = "departed" ∧
    (processTagData Model.env Model.sinksOk "u" []
      (Model.event [Model.read1, Model.readOther]) "handheld" 1000000000).loop.tagData =
      [Model.tag1] ∧
    ∀ c ∈ (processTagData Model.env Model.sinksOk "u" []
        (Model.event [Model.read1, Model.readOther]) "handheld" 1000000000).loop.updateCalls,
      c.tempTag.EventType = "arrival" :=
  ⟨by decide,
    (C7_handheld_reads_reach_UpdateTag_as_arrivals Model.env Model.sinksOk "u" []
      (Model.event [Model.read1, Model.readOther]) 1000000000).1.trans (by decide),
    (C7_handheld_reads_reach_UpdateTag_as_arrivals Model.env Model.sinksOk "u" []
      (Model.event [Model.read1, Model.readOther]) 1000000000).2.2.1⟩

end
end Inventory

namespace Inventory
open jsonrpc

section
variable {T DB Err : Type}

/-! ## C8: tags that have gone silent -/

/-- C8, as stated, fails on the code.  The store holds `tagSilent`, `Present`, last read at
time `0` in facility `F1`, whose age-out threshold is `600000`.  At time `1000000000` a
batch with one read of another EPC is ingested without error: `tagSilent` is still in
the store, still `Present`. -/
theorem C8_counterexample :
    Model.tagSilent.State = Model.TagState.Present ∧
    Model.ageOut? Model.env.AgeOuts Model.tagSilent.FacilityID = some 600000 ∧
    1000000000 - Model.tagSilent.LastRead > 600000 ∧
    Model.FindByEpc [Model.tagSilent] "3099" = Except.ok Model.tagSilent ∧
    (processTagData Model.env Model.sinksOk "u" [Model.tagSilent]
      (Model.event [Model.readNow]) "fixed" 1000000000).err = none ∧
    (processTagData Model.env Model.sinksOk "u" [Model.tagSilent]
      (Model.event [Model.readNow]) "fixed" 1000000000).replaceCalls =
        [[{ Model.tag1 with LastRead := 1000000000 }]] ∧
    Model.FindByEpc (processTagData Model.env Model.sinksOk "u" [Model.tagSilent]
      (Model.event [Model.readNow]) "fixed" 1000000000).db "3099" =
        Except.ok Model.tagSilent := by
  decide

/-- C8, amended: `processTagData` makes no pass over the store.  `markDepartedIfUnseen` is
applied to the reads of the batch only, and the store is written only by `tag.Replace`
on the records `UpdateTag` returns for those reads.  So in a store that keeps its
records by EPC (`markDepartedIfUnseen` keeps the EPC of a read, `UpdateTag` returns a
record of the EPC of the read, and `tag.Replace` leaves the lookup of an EPC it is not
given as it was), a tag whose EPC does not occur in the batch is found after the call
exactly as before it, whatever its state and however long it has been silent. -/
theorem C8_tags_outside_the_batch_are_untouched (env : Env T DB Err) (sinks : Sinks T Err)
    (url : String) (db : DB) (invEvent : InventoryEvent) (source : String) (now : Int)
    (epcOf : T → String) (epc : String)
    (hmark : ∀ r ageOuts t, (env.markDepartedIfUnseen r ageOuts t).EpcCode = r.EpcCode)
    (hupdate : ∀ prev r s, epcOf (env.UpdateTag prev r s) = r.EpcCode)
    (hreplace : ∀ d tags, (∀ t ∈ tags, epcOf t ≠ epc) →
      env.FindByEpc (env.Replace d tags).1 epc = env.FindByEpc d epc)
    (hbatch : ∀ r ∈ invEvent.Params.Data, r.EpcCode ≠ epc) :
    env.FindByEpc (processTagData env sinks url db invEvent source now).db epc =
      env.FindByEpc db epc := by
  have hprep : ∀ r, (prepareRead env source now r).EpcCode = r.EpcCode := by
    intro r
    unfold prepareRead
    by_cases hs : source = "handheld" <;> simp [hs, hmark]
  have htags : ∀ t ∈ (rangeLoop env db source now invEvent.Params.Data
      (LoopState.init T)).1.tagData, epcOf t ≠ epc := by
    intro t ht
    rw [rangeLoop_tagData, List.mem_map] at ht
    obtain ⟨c, hc, rfl⟩ := ht
    obtain ⟨_, _, r, hr, _, hcr⟩ :=
      rangeLoop_calls env db source now invEvent.Params.Data c hc
    simp only [UpdateCall.change]
    rw [hupdate, hcr, hprep]
    exact hbatch r hr
  have hwritten : env.FindByEpc
      (env.Replace db (rangeLoop env db source now invEvent.Params.Data
        (LoopState.init T)).1.tagData).1 epc = env.FindByEpc db epc :=
    hreplace db _ htags
  rcases processTagData_cases env sinks url db invEvent source now with
    ⟨f, _, _, hdb, _⟩ | ⟨_, _, _, hdb, _⟩ | ⟨e, _, _, hrep, _⟩ |
    ⟨e, _, _, hrep, _⟩ | ⟨tags, _, _, hrep, _⟩
  · rw [hdb]
  · rw [hdb]
  · rw [hrep] at hwritten; exact hwritten
  · rw [hrep] at hwritten; exact hwritten
  · rw [hrep] at hwritten; exact hwritten

theorem Model.find_upsert (db : Model.Store) (t : Model.Tag) (epc : String)
    (h : t.Epc ≠ epc) :
    (Model.upsert db t).find? (fun u => decide (u.Epc = epc)) =
      db.find? (fun u => decide (u.Epc = epc)) := by
  have hmap : ∀ l : List Model.Tag,
      (l.map (fun u => if u.Epc = t.Epc then t else u)).find?
        (fun u => decide (u.Epc = epc)) = l.find? (fun u => decide (u.Epc = epc)) := by
    intro l
    induction l with
    | nil => rfl
    | cons a l ih =>
      simp only [List.map_cons, List.find?_cons, ih]
      by_cases ha : a.Epc = t.Epc
      · have hne : a.Epc ≠ epc := by rw [ha]; exact h
        simp [ha, h, hne]
      · simp [ha]
  unfold Model.upsert
  split
  · exact hmap db
  · simp [List.find?_append, List.find?, h]

theorem Model.Replace_frame (db : Model.Store) (tags : List Model.Tag) (epc : String)
    (h : ∀ t ∈ tags, t.Epc ≠ epc) :
    Model.FindByEpc (Model.Replace db tags).1 epc = Model.FindByEpc db epc := by
  have hfold : ∀ (tags : List Model.Tag) (db : Model.Store), (∀ t ∈ tags, t.Epc ≠ epc) →
      (tags.foldl Model.upsert db).find? (fun u => decide (u.Epc = epc)) =
        db.find? (fun u => decide (u.Epc = epc)) := by
    intro tags
    induction tags with
    | nil => intro db _; rfl
    | cons t rest ih =>
      intro db ht
      simp only [List.foldl_cons]
      rw [ih (Model.upsert db t) (fun u hu => ht u (List.mem_cons_of_mem _ hu)),
        Model.find_upsert db t epc (ht t (List.mem_cons_self _ _))]
  simp only [Model.FindByEpc, Model.Replace, hfold tags db h]

/-- C8, amended, at the store holding `tagSilent` and a batch with one read of another
EPC: `tagSilent` is found after the call as it was before. -/
theorem C8_untouched_witness :
    Model.FindByEpc (processTagData Model.env Model.sinksOk "u" [Model.tagSilent]
      (Model.event [Model.readNow]) "fixed" 1000000000).db "3099" =
    Model.FindByEpc [Model.tagSilent] "3099" :=
  C8_tags_outside_the_batch_are_untouched Model.env Model.sinksOk "u" [Model.tagSilent]
    (Model.event [Model.readNow]) "fixed" 1000000000 Model.Tag.Epc "3099"
    (by
      intro r ageOuts t
      show (Model.markDepartedIfUnseen r ageOuts t).EpcCode = r.EpcCode
      unfold Model.markDepartedIfUnseen
      split
      · split <;> rfl
      · rfl)
    (fun _ _ _ => rfl)
    (fun d tags h => Model.Replace_frame d tags "3099" h)
    (by decide)

/-! ## C9 and C10: `Notification.Validate` -/

/-- C9: `Validate` returns `ErrInvalidVersion` if and only if the `Version` field of the
notification is not exactly the string `"2.0"`. -/
theorem C9_invalid_version_iff (js : Notification) :
    js.Validate = some RpcError.ErrInvalidVersion ↔ js.Version ≠ "2.0" := by
  unfold Notification.Validate RpcVersion
  by_cases hv : js.Version = "2.0"
  · by_cases hm : js.Method = "" <;> simp [hv, hm]
  · simp [hv]

/-- C10, as stated, fails on the code: the version is checked first, so a notification
with an empty `Method` and a `Version` other than `"2.0"` gets `ErrInvalidVersion`, not
`ErrMissingMethod`. -/
theorem C10_counterexample :
    (Notification.mk "1.0" "" "").Method = "" ∧
    (Notification.mk "1.0" "" "").Validate = some RpcError.ErrInvalidVersion ∧
    (Notification.mk "1.0" "" "").Validate ≠ some RpcError.ErrMissingMethod := by
  decide

/-- C10, amended: for every notification whose `Version` is `"2.0"` and whose `Method`
field is missing or empty, `Validate` returns `ErrMissingMethod`. -/
theorem C10_missing_method_after_version (js : Notification)
    (hversion : js.Version = "2.0") (hmethod : js.Method = "") :
    js.Validate = some RpcError.ErrMissingMethod := by
  simp [Notification.Validate, RpcVersion, hversion, hmethod]

/-- C10, amended, at the notification `{"jsonrpc": "2.0"}`. -/
theorem C10_missing_method_witness :
    (Notification.mk "2.0" "" "").Validate = some RpcError.ErrMissingMethod :=
  C10_missing_method_after_version (Notification.mk "2.0" "" "") rfl rfl

end
end Inventory

namespace Inventory
open jsonrpc

/-! ## C11: `Request.Validate` -/

/-- C11: `Request.Validate` returns `ErrMissingId` if and only if the `Id` field is
empty; for a request with a non-empty `Id` it returns exactly what `Validate` returns
on the embedded notification; hence it returns nil if and only if `Id` is non-empty,
`Version` is `"2.0"` and `Method` is non-empty. -/
theorem C11_request_validate (js : Request) :
    (js.Validate = some RpcError.ErrMissingId ↔ js.Id = "") ∧
    (js.Id ≠ "" → js.Validate = js.toNotification.Validate) ∧
    (js.Validate = none ↔
      js.Id ≠ "" ∧ js.toNotification.Version = "2.0" ∧ js.toNotification.Method ≠ "") := by
  unfold Request.Validate Notification.Validate RpcVersion
  by_cases hid : js.Id = "" <;>
    by_cases hv : js.toNotification.Version = "2.0" <;>
    by_cases hm : js.toNotification.Method = "" <;>
    simp [hid, hv, hm]

/-- C11 at three requests with an `Id`: one that is valid, one with a wrong version and
one without a method; each gets what its notification gets. -/
theorem C11_request_validate_witness :
    (Request.mk (Notification.mk "2.0" "inventory_event" "") "7").Validate = none ∧
    (Request.mk (Notification.mk "1.0" "inventory_event" "") "7").Validate =
      some RpcError.ErrInvalidVersion ∧
    (Request.mk (Notification.mk "2.0" "" "") "7").Validate =
      some RpcError.ErrMissingMethod :=
  ⟨((C11_request_validate
      (Request.mk (Notification.mk "2.0" "inventory_event" "") "7")).2.2).mpr
      (by decide),
    ((C11_request_validate
      (Request.mk (Notification.mk "1.0" "inventory_event" "") "7")).2.1 (by decide)).trans
      (by decide),
    ((C11_request_validate
      (Request.mk (Notification.mk "2.0" "" "") "7")).2.1 (by decide)).trans (by decide)⟩

end Inventory

namespace Inventory
open jsonrpc

namespace handlers

section
variable {T DB Err Raw Bytes Sel : Type}

/-! ## C12: when `GetTags` applies the confidence -/

/-- The function `containsChars` decides whether `substr` is a run of consecutive
characters of `s`. -/
theorem containsChars_iff_occurs (s substr : List Char) :
    containsChars s substr = true ↔ substr <:+: s := by
  induction s with
  | nil =>
    cases substr <;> simp [containsChars]
  | cons c s ih =>
    simp only [containsChars, Bool.or_eq_true, List.isPrefixOf_iff_prefix, ih,
      List.infix_cons_iff]

/-- Each of the joined strings is a run of consecutive characters of the join. -/
theorem stringsJoin_holds_each (l : List String) (v : String) (hv : v ∈ l) :
    v.data <:+: (stringsJoin l "").data := by
  induction l with
  | nil => simp at hv
  | cons a rest ih =>
    cases rest with
    | nil =>
      have : v = a := by simpa using hv
      subst this
      exact List.infix_refl _
    | cons b rest =>
      have hdata : (stringsJoin (a :: b :: rest) "").data =
          a.data ++ (stringsJoin (b :: rest) "").data := by
        simp [stringsJoin]
      rw [hdata]
      rcases List.mem_cons.mp hv with h | h
      · subst h
        exact (List.prefix_append _ _).isInfix
      · exact (ih h).trans (List.suffix_append _ _).isInfix

/-- A substring of one of the `$select` values is a substring of their join. -/
theorem stringsContains_join (l : List String) (v substr : String) (hv : v ∈ l)
    (h : stringsContains v substr = true) :
    stringsContains (stringsJoin l "") substr = true := by
  unfold stringsContains at h ⊢
  rw [containsChars_iff_occurs] at h ⊢
  exact h.trans (stringsJoin_holds_each l v hv)

/-- What `GetTags` returns once `json.Unmarshal` has produced `tagSlice`: the block
`if len(tagSlice) > 0` decides on the call of `ApplyConfidence`, and the response is made
of the slice that block leaves. -/
theorem GetTags_of_tagSlice (env : Env T DB Err Raw Bytes Sel) (inve : Inventory DB)
    (query : Values) (tags : Option Raw) (count : Option Nat) (bytes : Bytes)
    (tagSlice : List T)
    (hretrieve : env.Retrieve inve.MasterDB
      (if stringsContains (stringsJoin (query.index env.Select) "") "confidence" = true then
        query.Set env.Select
          (query.Get env.Select ++ ",facility_id,last_read,location_history")
      else query) inve.MaxSize = Except.ok (tags, count))
    (hlist : ¬ (count ≠ none ∧ tags = none))
    (hmarshal : env.Marshal tags = Except.ok bytes)
    (hunmarshal : env.Unmarshal bytes = Except.ok tagSlice) :
    GetTags env inve query =
      match (if tagSlice.length > 0 then
          if (stringsContains (stringsJoin (query.index env.Select) "") "confidence" ||
              !decide ((query.index env.Select).length > 0)) = true then
            match env.ApplyConfidence inve.MasterDB tagSlice inve.Url with
            | Except.error err => Except.error err
            | Except.ok withConfidence => Except.ok (withConfidence, [tagSlice])
          else Except.ok (tagSlice, [])
        else Except.ok (tagSlice, []) : Except Err (List T × List (List T))) with
      | Except.error err =>
        { err := some (Failure.Plain err), response := none,
          retrieveCalls := [if stringsContains (stringsJoin (query.index env.Select) "")
              "confidence" = true then
            query.Set env.Select
              (query.Get env.Select ++ ",facility_id,last_read,location_history")
            else query],
          tagSlice := some tagSlice, confidenceCalls := [tagSlice] }
      | Except.ok (tagSlice1, calls) =>
        { err := none,
          response := some (respondTags env (decide ((query.index env.Select).length > 0))
            ((query.index env.Select).headD "") count tagSlice1),
          retrieveCalls := [if stringsContains (stringsJoin (query.index env.Select) "")
              "confidence" = true then
            query.Set env.Select
              (query.Get env.Select ++ ",facility_id,last_read,location_history")
            else query],
          tagSlice := some tagSlice, confidenceCalls := calls } := by
  have hcopy : (if (query.index env.Select).length > 0 then
      (query.index env.Select).headD "" else "") = (query.index env.Select).headD "" := by
    cases query.index env.Select <;> simp
  unfold GetTags
  simp only [hcopy, hretrieve]
  rcases count with _ | c <;> rcases tags with _ | raw
  · simp only [hmarshal, hunmarshal]
  · simp only [hmarshal, hunmarshal]
  · exact absurd ⟨by simp, rfl⟩ hlist
  · simp only [hmarshal, hunmarshal]

/-- C12, as stated, fails on the code.  The request `$select=conf&$select=idence` has a
`$select` parameter, none of whose values contains `confidence`; the store holds one
tag, so the retrieved list is not empty.  `GetTags` joins the values before the search
and calls `ApplyConfidence`: with an `ApplyConfidence` that fails, the error of that
call is what `GetTags` returns. -/
theorem C12_counterexample :
    Values.index [("$select", ["conf", "idence"])] modelEnv.Select = ["conf", "idence"] ∧
    stringsContains "conf" "confidence" = false ∧
    stringsContains "idence" "confidence" = false ∧
    (GetTags modelEnv modelInventory [("$select", ["conf", "idence"])]).tagSlice =
      some [Model.tag1] ∧
    (GetTags modelEnv modelInventory [("$select", ["conf", "idence"])]).confidenceCalls =
      [[Model.tag1]] ∧
    (GetTags modelEnvConfidenceFails modelInventory
      [("$select", ["conf", "idence"])]).err = some (Failure.Plain "no coefficients") := by
  decide

/-- C12, amended: when the retrieval succeeds and yields the tag list `tagSlice`
(`tag.Retrieve` returns tags, and the JSON round trip gives `tagSlice`), then, with a
non-empty `tagSlice`, `ApplyConfidence` is invoked if and only if the request has no
`$select` value or the `$select` values, joined in order, contain the substring
`confidence`.  When it is invoked, it is invoked on `tagSlice`, its error is the error
of `GetTags`, and the response is made of the tags as it left them; when it is not, the
response is made of `tagSlice` as retrieved.  With an empty `tagSlice` it is not
invoked.  A `$select` value that contains `confidence` makes the joined values contain
it. -/
theorem C12_confidence_applied_iff_joined_select_contains (env : Env T DB Err Raw Bytes Sel)
    (inve : Inventory DB) (query : Values) (tags : Option Raw) (count : Option Nat)
    (bytes : Bytes) (tagSlice : List T)
    (hretrieve : env.Retrieve inve.MasterDB
      (if stringsContains (stringsJoin (query.index env.Select) "") "confidence" = true then
        query.Set env.Select
          (query.Get env.Select ++ ",facility_id,last_read,location_history")
      else query) inve.MaxSize = Except.ok (tags, count))
    (hlist : ¬ (count ≠ none ∧ tags = none))
    (hmarshal : env.Marshal tags = Except.ok bytes)
    (hunmarshal : env.Unmarshal bytes = Except.ok tagSlice) :
    (tagSlice ≠ [] →
      ((query.index env.Select = [] ∨
          stringsContains (stringsJoin (query.index env.Select) "") "confidence" = true) →
        (GetTags env inve query).confidenceCalls = [tagSlice] ∧
        (GetTags env inve query).err =
          (match env.ApplyConfidence inve.MasterDB tagSlice inve.Url with
            | Except.error err => some (Failure.Plain err)
            | Except.ok _ => none) ∧
        (GetTags env inve query).response =
          (match env.ApplyConfidence inve.MasterDB tagSlice inve.Url with
            | Except.error _ => none
            | Except.ok withConfidence =>
              some (respondTags env (decide ((query.index env.Select).length > 0))
                ((query.index env.Select).headD "") count withConfidence))) ∧
      (¬ (query.index env.Select = [] ∨
          stringsContains (stringsJoin (query.index env.Select) "") "confidence" = true) →
        (GetTags env inve query).confidenceCalls = [] ∧
        (GetTags env inve query).err = none ∧
        (GetTags env inve query).response =
          some (respondTags env (decide ((query.index env.Select).length > 0))
            ((query.index env.Select).headD "") count tagSlice))) ∧
    (tagSlice = [] →
      (GetTags env inve query).confidenceCalls = [] ∧
      (GetTags env inve query).err = none ∧
      (GetTags env inve query).response =
        some (respondTags env (decide ((query.index env.Select).length > 0))
          ((query.index env.Select).headD "") count [])) ∧
    (∀ v ∈ query.index env.Select, stringsContains v "confidence" = true →
      stringsContains (stringsJoin (query.index env.Select) "") "confidence" = true) := by
  have hcond : (query.index env.Select = [] ∨
      stringsContains (stringsJoin (query.index env.Select) "") "confidence" = true) ↔
      (stringsContains (stringsJoin (query.index env.Select) "") "confidence" ||
        !decide ((query.index env.Select).length > 0)) = true := by
    cases query.index env.Select with
    | nil => simp
    | cons a l => simp
  rw [GetTags_of_tagSlice env inve query tags count bytes tagSlice hretrieve hlist hmarshal
    hunmarshal]
  refine ⟨?_, ?_, fun v hv h => stringsContains_join _ v "confidence" hv h⟩
  · intro hne
    have hlen : tagSlice.length > 0 := List.length_pos.mpr hne
    refine ⟨?_, ?_⟩
    · intro h
      have hc := hcond.mp h
      simp only [hlen, hc, if_true]
      cases env.ApplyConfidence inve.MasterDB tagSlice inve.Url <;> simp
    · intro h
      have hc : ¬ (stringsContains (stringsJoin (query.index env.Select) "") "confidence" ||
          !decide ((query.index env.Select).length > 0)) = true := fun hc => h (hcond.mpr hc)
      simp only [hlen, hc, if_true, if_false]
      simp
  · intro he
    subst he
    simp

/-- C12, amended, at a store holding `tag1`: the request `$select=epc,confidence` makes
`GetTags` call `ApplyConfidence` on the retrieved tag, and the request `$select=epc`
does not. -/
theorem C12_confidence_witness :
    ((GetTags modelEnv modelInventory [("$select", ["epc,confidence"])]).confidenceCalls =
        [[Model.tag1]] ∧
      (GetTags modelEnv modelInventory [("$select", ["epc,confidence"])]).err = none) ∧
    (GetTags modelEnv modelInventory [("$select", ["epc"])]).confidenceCalls = [] :=
  ⟨⟨(((C12_confidence_applied_iff_joined_select_contains modelEnv modelInventory
        [("$select", ["epc,confidence"])] (some [Model.tag1]) none [Model.tag1]
        [Model.tag1] (by decide) (by decide) (by decide) (by decide)).1 (by decide)).1
        (Or.inr (by decide))).1,
    ((((C12_confidence_applied_iff_joined_select_contains modelEnv modelInventory
        [("$select", ["epc,confidence"])] (some [Model.tag1]) none [Model.tag1]
        [Model.tag1] (by decide) (by decide) (by decide) (by decide)).1 (by decide)).1
        (Or.inr (by decide))).2.1).trans (by decide)⟩,
    (((C12_confidence_applied_iff_joined_select_contains modelEnv modelInventory
        [("$select", ["epc"])] (some [Model.tag1]) none [Model.tag1]
        [Model.tag1] (by decide) (by decide) (by decide) (by decide)).1 (by decide)).2
        (by decide)).1⟩

end
end handlers
end Inventory
